import Mathlib

/-!
Verification development for the `santree` interactive dashboard:
a shallow embedding of the dashboard state machine (`source/lib/dashboard/types.ts`),
the data aggregator (`loadDashboardData`), the scroll/layout math and the
keyboard interaction router (`source/commands/dashboard.tsx`), and the
ticket-id extraction from `source/lib/git.ts`, together with theorems about
the spec's testable properties.

Conventions of the embedding:
* JavaScript numbers that can go negative (selection index, scroll offsets,
  `findIndex` results) are modelled as `Int`; counters that stay non-negative
  by construction (row walking) are `Nat`.
* JavaScript truthiness of a nullable string (`if (x)`) is `jsTruthyStr`:
  false exactly for `null`/`""`.
* Asynchronous collaborator calls (git/gh/Linear) are modelled as explicit
  environment functions; workflows become pure functions of the outcome of
  each external step, returning the list of dispatched actions.
-/

namespace Santree

/-! ## Character classes used by the JavaScript regexes -/

/-- `[a-zA-Z]` of the JS regex in `extractTicketId`. -/
def isAsciiLetter (c : Char) : Bool :=
  (97 ≤ c.toNat && c.toNat ≤ 122) || (65 ≤ c.toNat && c.toNat ≤ 90)

/-- `\d` of the JS regexes (ASCII digits). -/
def isAsciiDigit (c : Char) : Bool :=
  48 ≤ c.toNat && c.toNat ≤ 57

/-- `[A-Z]` of the orphan-title regex `^[A-Z]+-\d+-?`. -/
def isAsciiUpper (c : Char) : Bool :=
  65 ≤ c.toNat && c.toNat ≤ 90

/-- `String.prototype.toUpperCase` restricted to ASCII letters, which is all
`extractTicketId` feeds it (the captured group is `[a-zA-Z]+`). -/
def jsUpperChar (c : Char) : Char :=
  if 97 ≤ c.toNat && c.toNat ≤ 122 then Char.ofNat (c.toNat - 32) else c

/-- Whitespace stripped by `String.prototype.trim`.  The inputs trimmed in the
embedded code only ever contain spaces (hyphens replaced by `" "`) plus
whatever appeared in a branch name / commit message, so the common ASCII
whitespace plus NBSP covers the JS set on this domain. -/
def isJsSpace (c : Char) : Bool :=
  c = ' ' || c = '\t' || c = '\n' || c = '\r' ||
  c.toNat = 11 || c.toNat = 12 || c.toNat = 160

/-- `String.prototype.trim` on a character list. -/
def jsTrimList (l : List Char) : List Char :=
  ((l.dropWhile isJsSpace).reverse.dropWhile isJsSpace).reverse

/-- `String.prototype.trim`. -/
def jsTrim (s : String) : String :=
  ⟨jsTrimList s.data⟩

/-- JS truthiness of a `string | null` value: `null` and `""` are falsy. -/
def jsTruthyStr : Option String → Bool
  | none => false
  | some s => s ≠ ""

/-! ## `extractTicketId` (source/lib/git.ts)

```ts
export function extractTicketId(branch: string): string | null {
  const match = branch.match(/([a-zA-Z]+)-(\d+)/);
  if (match) {
    return `${match[1]!.toUpperCase()}-${match[2]}`;
  }
  return null;
}
```

The regex is unanchored, so `.match` finds the leftmost match.  Because a
maximal run of `[a-zA-Z]` can only be followed by a non-letter, greedy
matching without backtracking coincides with the regex semantics here: at a
given start position the pattern matches iff the maximal letter run there is
non-empty, is followed by `'-'`, and then by at least one digit. -/

/-- Attempt the pattern `([a-zA-Z]+)-(\d+)` anchored at the head of `l`,
returning the captured (letters, digits) groups. -/
def tryTicketMatch (l : List Char) : Option (List Char × List Char) :=
  let letters := l.takeWhile isAsciiLetter
  if letters.isEmpty then none
  else
    match l.drop letters.length with
    | [] => none
    | c :: rest =>
      if c = '-' then
        let digits := rest.takeWhile isAsciiDigit
        if digits.isEmpty then none else some (letters, digits)
      else none

/-- Leftmost match of `([a-zA-Z]+)-(\d+)`: try each start position in order. -/
def findTicketMatch : List Char → Option (List Char × List Char)
  | [] => none
  | c :: cs =>
    match tryTicketMatch (c :: cs) with
    | some m => some m
    | none => findTicketMatch cs

/-- `extractTicketId` of `source/lib/git.ts`. -/
def extractTicketId (branch : String) : Option String :=
  (findTicketMatch branch.data).map fun m => ⟨m.1.map jsUpperChar ++ '-' :: m.2⟩

/-- Spec-side reading of "a LETTERS-DIGITS substring exists": some decomposition
of the string contains a non-empty letter run, a hyphen, and a non-empty digit
run in sequence. -/
def hasTicketPattern (s : String) : Prop :=
  ∃ (pre l d post : List Char),
    s.data = pre ++ l ++ '-' :: (d ++ post) ∧
    l ≠ [] ∧ d ≠ [] ∧
    (∀ c ∈ l, isAsciiLetter c = true) ∧ (∀ c ∈ d, isAsciiDigit c = true)

/-! ## Data model (source/lib/dashboard/types.ts, source/lib/github.ts) -/

/-- `PRInfo` of `source/lib/github.ts` (`gh pr view --json number,state,url`);
note `number` is a string there. -/
structure PRInfo where
  number : String
  state : String
  url : Option String
  deriving DecidableEq, Repr

/-- `PRCheck` of `source/lib/github.ts`. -/
structure PRCheck where
  name : String
  state : String
  bucket : String
  link : String
  description : String
  workflow : String
  deriving DecidableEq, Repr

/-- `PRReview` of `source/lib/github.ts` (`author` flattened to its only
field `login`). -/
structure PRReview where
  authorLogin : String
  state : String
  body : String
  submittedAt : String
  deriving DecidableEq, Repr

/-- The nested `state: { name, type }` object of `LinearAssignedIssue`. -/
structure IssueState where
  name : String
  type : String
  deriving DecidableEq, Repr

/-- `LinearAssignedIssue` of `source/lib/dashboard/types.ts`. -/
structure LinearAssignedIssue where
  identifier : String
  title : String
  description : Option String
  url : String
  priority : Int
  priorityLabel : String
  state : IssueState
  labels : List String
  projectId : Option String
  projectName : Option String
  deriving DecidableEq, Repr

/-- `WorktreeInfo` of `source/lib/dashboard/types.ts`. -/
structure WorktreeInfo where
  path : String
  branch : String
  dirty : Bool
  commitsAhead : Int
  sessionId : Option String
  gitStatus : String
  deriving DecidableEq, Repr

/-- `DashboardIssue` of `source/lib/dashboard/types.ts`. -/
structure DashboardIssue where
  issue : LinearAssignedIssue
  worktree : Option WorktreeInfo
  pr : Option PRInfo
  checks : Option (List PRCheck)
  reviews : Option (List PRReview)
  deriving DecidableEq, Repr

/-- `StatusGroup` as constructed by `loadDashboardData` (object literals
`{ name, type, issues }`) and consumed by `dashboard.tsx`
(`g.statusGroups[..].issues`); the type declaration itself is absent from the
shipped `types.ts`, which still has the pre-status-group `ProjectGroup`. -/
structure StatusGroup where
  name : String
  type : String
  issues : List DashboardIssue
  deriving DecidableEq, Repr

/-- `ProjectGroup` in the shape produced by `loadDashboardData` and consumed
by the dashboard (`name`, `id`, `statusGroups`). -/
structure ProjectGroup where
  name : String
  id : Option String
  statusGroups : List StatusGroup
  deriving DecidableEq, Repr

/-- `ActionOverlay` of `types.ts` (the non-null values), plus
`"confirm-setup"`, which `dashboard.tsx` compares `state.overlay` against at
runtime even though the shipped `ActionOverlay` union does not list it. -/
inductive Overlay where
  | modeSelect
  | confirmDelete
  | commit
  | prCreate
  | confirmSetup
  deriving DecidableEq, Repr

/-- `CommitPhase` of `types.ts`. -/
inductive CommitPhase where
  | idle
  | confirmStage
  | awaitingMessage
  | committing
  | pushing
  | done
  | error
  deriving DecidableEq, Repr

/-- `PrCreatePhase` of `types.ts`. -/
inductive PrCreatePhase where
  | idle
  | chooseMode
  | pushing
  | creating
  | done
  | error
  deriving DecidableEq, Repr

/-- `DashboardState` of `types.ts`. -/
structure DashboardState where
  groups : List ProjectGroup
  flatIssues : List DashboardIssue
  selectedIndex : Int
  listScrollOffset : Int
  detailScrollOffset : Int
  loading : Bool
  refreshing : Bool
  error : Option String
  overlay : Option Overlay
  actionMessage : Option String
  creatingForTicket : Option String
  creationLogs : String
  creationError : Option String
  deletingForTicket : Option String
  commitPhase : CommitPhase
  commitMessage : String
  commitError : Option String
  commitTicketId : Option String
  commitWorktreePath : Option String
  commitBranch : Option String
  commitGitStatus : String
  prCreatePhase : PrCreatePhase
  prCreateTicketId : Option String
  prCreateWorktreePath : Option String
  prCreateBranch : Option String
  prCreateError : Option String
  prCreateUrl : Option String
  deriving DecidableEq, Repr

/-- `initialState` of `types.ts`. -/
def initialState : DashboardState where
  groups := []
  flatIssues := []
  selectedIndex := 0
  listScrollOffset := 0
  detailScrollOffset := 0
  loading := true
  refreshing := false
  error := none
  overlay := none
  actionMessage := none
  creatingForTicket := none
  creationLogs := ""
  creationError := none
  deletingForTicket := none
  commitPhase := .idle
  commitMessage := ""
  commitError := none
  commitTicketId := none
  commitWorktreePath := none
  commitBranch := none
  commitGitStatus := ""
  prCreatePhase := .idle
  prCreateTicketId := none
  prCreateWorktreePath := none
  prCreateBranch := none
  prCreateError := none
  prCreateUrl := none

/-- `"plan" | "implement"` mode passed through the work actions. -/
inductive WorkMode where
  | plan
  | implement
  deriving DecidableEq, Repr

/-- `DashboardAction` of `types.ts`, extended with the two actions
`dashboard.tsx` actually dispatches but the shipped union (and reducer) does
not know: `SETUP_CONFIRM_SHOW` and `SETUP_CONFIRM_DONE`.  At runtime an
unknown `type` falls into the reducer's `default` branch. -/
inductive DashboardAction where
  | setData (groups : List ProjectGroup) (flatIssues : List DashboardIssue)
  | select (index : Int)
  | scrollList (offset : Int)
  | scrollDetail (offset : Int)
  | refreshStart
  | refreshDone
  | setError (error : String)
  | setOverlay (overlay : Option Overlay)
  | setActionMessage (message : Option String)
  | clearError
  | creationStart (ticketId : String)
  | creationLog (logs : String)
  | creationDone
  | creationError (error : String)
  | deleteStart (ticketId : String)
  | deleteDone
  | commitStart (ticketId worktreePath branch gitStatus : String)
  | commitPhase (phase : CommitPhase)
  | commitMessage (message : String)
  | commitError (error : String)
  | commitDone
  | commitCancel
  | prCreateStart (ticketId worktreePath branch : String)
  | prCreatePhase (phase : PrCreatePhase)
  | prCreateError (error : String)
  | prCreateDone (url : String)
  | prCreateCancel
  | setupConfirmShow (mode : WorkMode)
  | setupConfirmDone
  deriving DecidableEq, Repr

/-- JS array indexing `l[i]`: `undefined` for out-of-range or negative. -/
def jsIndex {α : Type} (l : List α) (i : Int) : Option α :=
  if i < 0 then none else l.get? i.toNat

/-- JS `Array.prototype.findIndex`: index of the first match, `-1` if none. -/
def jsFindIndex {α : Type} (p : α → Bool) : List α → Int
  | [] => -1
  | a :: l =>
    if p a then 0
    else
      let r := jsFindIndex p l
      if r < 0 then -1 else r + 1

/-- The reducer of `source/lib/dashboard/types.ts`, case for case. -/
def reducer (state : DashboardState) (action : DashboardAction) : DashboardState :=
  match action with
  | .setData groups flatIssues =>
    -- Preserve selection by identifier if possible
    let prevId := (jsIndex state.flatIssues state.selectedIndex).map (·.issue.identifier)
    let newIndex : Int :=
      if jsTruthyStr prevId then
        let found := jsFindIndex (fun d => d.issue.identifier = (prevId.getD "")) flatIssues
        if found ≥ 0 then found else 0
      else 0
    { state with
        groups := groups
        flatIssues := flatIssues
        selectedIndex := newIndex
        loading := false
        refreshing := false
        error := none
        detailScrollOffset := 0 }
  | .select index => { state with selectedIndex := index, detailScrollOffset := 0 }
  | .scrollList offset => { state with listScrollOffset := offset }
  | .scrollDetail offset => { state with detailScrollOffset := offset }
  | .refreshStart => { state with refreshing := true }
  | .refreshDone => { state with refreshing := false }
  | .setError error => { state with error := some error, loading := false, refreshing := false }
  | .setOverlay overlay => { state with overlay := overlay }
  | .setActionMessage message => { state with actionMessage := message }
  | .clearError => { state with error := none }
  | .creationStart ticketId =>
    { state with creatingForTicket := some ticketId, creationLogs := "", creationError := none }
  | .creationLog logs => { state with creationLogs := state.creationLogs ++ logs }
  | .creationDone =>
    { state with creatingForTicket := none, creationLogs := "", creationError := none }
  | .creationError error =>
    { state with creationError := some error, creatingForTicket := none, creationLogs := "" }
  | .deleteStart ticketId => { state with deletingForTicket := some ticketId }
  | .deleteDone => { state with deletingForTicket := none }
  | .commitStart ticketId worktreePath branch gitStatus =>
    { state with
        overlay := some .commit
        commitPhase := .confirmStage
        commitMessage := ""
        commitError := none
        commitTicketId := some ticketId
        commitWorktreePath := some worktreePath
        commitBranch := some branch
        commitGitStatus := gitStatus }
  | .commitPhase phase => { state with commitPhase := phase }
  | .commitMessage message => { state with commitMessage := message }
  | .commitError error => { state with commitPhase := .error, commitError := some error }
  | .commitDone => { state with commitPhase := .done }
  | .commitCancel =>
    { state with
        overlay := none
        commitPhase := .idle
        commitMessage := ""
        commitError := none
        commitTicketId := none
        commitWorktreePath := none
        commitBranch := none
        commitGitStatus := "" }
  | .prCreateStart ticketId worktreePath branch =>
    { state with
        overlay := some .prCreate
        prCreatePhase := .chooseMode
        prCreateTicketId := some ticketId
        prCreateWorktreePath := some worktreePath
        prCreateBranch := some branch
        prCreateError := none
        prCreateUrl := none }
  | .prCreatePhase phase => { state with prCreatePhase := phase }
  | .prCreateError error =>
    { state with prCreatePhase := .error, prCreateError := some error }
  | .prCreateDone url => { state with prCreatePhase := .done, prCreateUrl := some url }
  | .prCreateCancel =>
    { state with
        overlay := none
        prCreatePhase := .idle
        prCreateTicketId := none
        prCreateWorktreePath := none
        prCreateBranch := none
        prCreateError := none
        prCreateUrl := none }
  -- `SETUP_CONFIRM_SHOW` / `SETUP_CONFIRM_DONE` have no case in the shipped
  -- reducer: they fall into `default: return state`.
  | .setupConfirmShow _ => state
  | .setupConfirmDone => state

/-- `dispatch` folded over a list of actions, in dispatch order. -/
def runActions (s : DashboardState) (l : List DashboardAction) : DashboardState :=
  l.foldl reducer s

/-! ## Scroll/layout math (source/commands/dashboard.tsx)

`getRowIndexForFlatIndex` and `getFlatIndexForListRow` walk
groups → status groups → issues with a running visual row (starting at 1 to
skip the column-header row; one extra row per project header and per status
header) and a running count of issues seen.  The imperative early `return`s
are modelled with `Sum`: `.inl` is the early return, `.inr` carries the loop
accumulators `(row, issuesSeen)` out of the loop. -/

/-- Innermost loop of `getRowIndexForFlatIndex` over one status group's
issues (`count` = number of issues). -/
def rowWalkIssues (count row issuesSeen flatIndex : Nat) : Sum Nat (Nat × Nat) :=
  match count with
  | 0 => .inr (row, issuesSeen)
  | Nat.succ k =>
    if issuesSeen = flatIndex then .inl row
    else rowWalkIssues k (row + 1) (issuesSeen + 1) flatIndex

/-- Loop of `getRowIndexForFlatIndex` over the status groups of one project
(`row + 1` accounts for the status-header row). -/
def rowWalkStatusGroups : List StatusGroup → Nat → Nat → Nat → Sum Nat (Nat × Nat)
  | [], row, issuesSeen, _ => .inr (row, issuesSeen)
  | sg :: rest, row, issuesSeen, flatIndex =>
    match rowWalkIssues sg.issues.length (row + 1) issuesSeen flatIndex with
    | .inl r => .inl r
    | .inr (row2, seen2) => rowWalkStatusGroups rest row2 seen2 flatIndex

/-- Outer loop of `getRowIndexForFlatIndex` over the project groups
(`row + 1` accounts for the project-header row). -/
def rowWalkGroups : List ProjectGroup → Nat → Nat → Nat → Sum Nat (Nat × Nat)
  | [], row, issuesSeen, _ => .inr (row, issuesSeen)
  | g :: rest, row, issuesSeen, flatIndex =>
    match rowWalkStatusGroups g.statusGroups (row + 1) issuesSeen flatIndex with
    | .inl r => .inl r
    | .inr (row2, seen2) => rowWalkGroups rest row2 seen2 flatIndex

/-- `getRowIndexForFlatIndex` of `dashboard.tsx`: the walk starts at
`row = 1` (column-header row skipped) and returns `0` when the flat index is
never reached. -/
def getRowIndexForFlatIndex (groups : List ProjectGroup) (flatIndex : Nat) : Nat :=
  match rowWalkGroups groups 1 0 flatIndex with
  | .inl r => r
  | .inr _ => 0

/-- Innermost loop of `getFlatIndexForListRow` over one status group's
issues. -/
def flatWalkIssues (count row issuesSeen listRow : Nat) :
    Sum (Option Nat) (Nat × Nat) :=
  match count with
  | 0 => .inr (row, issuesSeen)
  | Nat.succ k =>
    if row = listRow then .inl (some issuesSeen)
    else flatWalkIssues k (row + 1) (issuesSeen + 1) listRow

/-- Loop of `getFlatIndexForListRow` over the status groups of one project:
landing on the status-header row yields `null`. -/
def flatWalkStatusGroups : List StatusGroup → Nat → Nat → Nat → Sum (Option Nat) (Nat × Nat)
  | [], row, issuesSeen, _ => .inr (row, issuesSeen)
  | sg :: rest, row, issuesSeen, listRow =>
    if row = listRow then .inl none
    else
      match flatWalkIssues sg.issues.length (row + 1) issuesSeen listRow with
      | .inl r => .inl r
      | .inr (row2, seen2) => flatWalkStatusGroups rest row2 seen2 listRow

/-- Outer loop of `getFlatIndexForListRow` over the project groups: landing
on the project-header row yields `null`. -/
def flatWalkGroups : List ProjectGroup → Nat → Nat → Nat → Sum (Option Nat) (Nat × Nat)
  | [], row, issuesSeen, _ => .inr (row, issuesSeen)
  | g :: rest, row, issuesSeen, listRow =>
    if row = listRow then .inl none
    else
      match flatWalkStatusGroups g.statusGroups (row + 1) issuesSeen listRow with
      | .inl r => .inl r
      | .inr (row2, seen2) => flatWalkGroups rest row2 seen2 listRow

/-- `getFlatIndexForListRow` of `dashboard.tsx`: row `0` is the column-header
row; falling off the end of the walk yields `null`. -/
def getFlatIndexForListRow (groups : List ProjectGroup) (listRow : Nat) : Option Nat :=
  if listRow = 0 then none
  else
    match flatWalkGroups groups 1 0 listRow with
    | .inl r => r
    | .inr _ => none

/-- Number of issues in a status-group list. -/
def issuesInStatusGroups (sgs : List StatusGroup) : Nat :=
  (sgs.map (fun sg => sg.issues.length)).sum

/-- Number of visual rows a status-group list occupies (one header row per
status group plus one row per issue). -/
def rowsInStatusGroups (sgs : List StatusGroup) : Nat :=
  (sgs.map (fun sg => 1 + sg.issues.length)).sum

/-- Number of issues in a project-group list. -/
def issuesInGroups (gs : List ProjectGroup) : Nat :=
  (gs.map (fun g => issuesInStatusGroups g.statusGroups)).sum

/-- Number of visual rows a project-group list occupies (one header row per
project plus its status groups' rows). -/
def rowsInGroups (gs : List ProjectGroup) : Nat :=
  (gs.map (fun g => 1 + rowsInStatusGroups g.statusGroups)).sum

/-! ## Data aggregator (`loadDashboardData`, dashboard data module)

The asynchronous collaborators (git status, commits ahead, PR info/checks/
reviews, session metadata, base branch) are modelled as an explicit
environment of pure functions; `loadDashboardData` then becomes a pure
function of the fetched issues, the enumerated worktrees and that
environment.  The JS `Map` insertion-order semantics (`set` on an existing
key updates the value in place) are modelled on association lists. -/

/-- Entry of `listWorktrees()` as consumed by `loadDashboardData`: `branch`
is absent for detached/bare worktrees (`if (!wt.branch) continue`). -/
structure RawWorktree where
  path : String
  branch : Option String
  deriving DecidableEq, Repr

/-- Value stored in the worktree map: `{ path: wt.path, branch: wt.branch }`. -/
structure WtEntry where
  path : String
  branch : String
  deriving DecidableEq, Repr

/-- The external collaborators of `loadDashboardData`.  `prChecks`/`prReviews`
take the PR `number` (a string in `github.ts`). -/
structure DataEnv where
  gitStatus : String → String
  commitsAhead : String → String → Int
  prInfo : String → Option PRInfo
  prChecks : String → Option (List PRCheck)
  prReviews : String → Option (List PRReview)
  sessionId : String → Option String
  baseBranch : String → String

/-- JS `Map.prototype.set` on an association list: overwrite the value at an
existing key in place, otherwise append. -/
def mapSet {α : Type} (m : List (String × α)) (k : String) (v : α) : List (String × α) :=
  if m.any (fun p => p.1 = k) then
    m.map (fun p => if p.1 = k then (p.1, v) else p)
  else m ++ [(k, v)]

/-- JS `Map.prototype.get`. -/
def mapGet {α : Type} (m : List (String × α)) (k : String) : Option α :=
  (m.find? (fun p => p.1 = k)).map (·.2)

/-- One iteration of the worktree-map loop: skip worktrees without a branch
(`if (!wt.branch) continue`, the empty string being falsy) or without an
extractable ticket id, otherwise `wtMap.set(tid, {path, branch})`. -/
def wtStep (m : List (String × WtEntry)) (wt : RawWorktree) : List (String × WtEntry) :=
  match wt.branch with
  | none => m
  | some b =>
    if b = "" then m
    else
      match extractTicketId b with
      | none => m
      | some tid => mapSet m tid ⟨wt.path, b⟩

/-- Building the `ticketId -> {path, branch}` map over the worktree list. -/
def buildWtMap (worktrees : List RawWorktree) : List (String × WtEntry) :=
  worktrees.foldl wtStep []

/-- Enrichment of one fetched issue (the `issues.map` callback). -/
def enrichIssue (env : DataEnv) (wtMap : List (String × WtEntry))
    (issue : LinearAssignedIssue) : DashboardIssue :=
  match mapGet wtMap issue.identifier with
  | none => ⟨issue, none, none, none, none⟩
  | some wt =>
    let base := env.baseBranch wt.branch
    let gitStatusOutput := env.gitStatus wt.path
    let ahead := env.commitsAhead wt.path base
    let pr := env.prInfo wt.branch
    let checksInfo := match pr with
      | some p => env.prChecks p.number
      | none => none
    let reviewsInfo := match pr with
      | some p => env.prReviews p.number
      | none => none
    { issue := issue
      worktree := some
        { path := wt.path
          branch := wt.branch
          dirty := gitStatusOutput ≠ ""   -- `Boolean(gitStatusOutput)`
          commitsAhead := ahead
          sessionId := env.sessionId issue.identifier
          gitStatus := gitStatusOutput }
      pr := pr
      checks := checksInfo
      reviews := reviewsInfo }

/-- `branch.replace(/^[^/]+\//, "")`: strip a leading `prefix/` segment. -/
def stripLeadingSegment (l : List Char) : List Char :=
  let seg := l.takeWhile (fun c => c ≠ '/')
  if seg.isEmpty then l
  else
    match l.drop seg.length with
    | '/' :: rest => rest
    | _ => l

/-- `.replace(/^[A-Z]+-\d+-?/, "")`: strip a leading upper-case ticket-id
pattern (with an optional trailing hyphen). -/
def stripTicketPattern (l : List Char) : List Char :=
  let ups := l.takeWhile isAsciiUpper
  if ups.isEmpty then l
  else
    match l.drop ups.length with
    | '-' :: rest =>
      let ds := rest.takeWhile isAsciiDigit
      if ds.isEmpty then l
      else
        match rest.drop ds.length with
        | '-' :: rest2 => rest2
        | other => other
    | _ => l

/-- The orphan title derivation: strip the leading segment, strip the leading
ticket-id pattern, replace every hyphen by a space (the global
`replace` on the hyphen regex), `trim()`, and fall back to `tid` when the
result is the (falsy) empty string. -/
def orphanTitle (branch tid : String) : String :=
  let t := jsTrimList
    ((stripTicketPattern (stripLeadingSegment branch.data)).map
      (fun c => if c = '-' then ' ' else c))
  if t = [] then tid else ⟨t⟩

/-- The synthesized placeholder `DashboardIssue` for one orphan worktree-map
entry. -/
def orphanIssue (env : DataEnv) (tid : String) (wt : WtEntry) : DashboardIssue :=
  let base := env.baseBranch wt.branch
  let gitStatusOutput := env.gitStatus wt.path
  let ahead := env.commitsAhead wt.path base
  let pr := env.prInfo wt.branch
  let checksInfo := match pr with
    | some p => env.prChecks p.number
    | none => none
  let reviewsInfo := match pr with
    | some p => env.prReviews p.number
    | none => none
  { issue :=
      { identifier := tid
        title := orphanTitle wt.branch tid
        description := none
        url := ""
        priority := 0
        priorityLabel := "None"
        state := ⟨"Orphaned", "orphaned"⟩
        labels := []
        projectId := none
        projectName := none }
    worktree := some
      { path := wt.path
        branch := wt.branch
        dirty := gitStatusOutput ≠ ""
        commitsAhead := ahead
        sessionId := env.sessionId tid
        gitStatus := gitStatusOutput }
    pr := pr
    checks := checksInfo
    reviews := reviewsInfo }

/-- One iteration of the project-grouping loop: push the issue onto its
project-name bucket (`"No Project"` when absent), creating the bucket at the
end on first sight. -/
def projStep (m : List (String × List DashboardIssue)) (di : DashboardIssue) :
    List (String × List DashboardIssue) :=
  let key := di.issue.projectName.getD "No Project"
  if m.any (fun p => p.1 = key) then
    m.map (fun p => if p.1 = key then (p.1, p.2 ++ [di]) else p)
  else m ++ [(key, [di])]

/-- Grouping by project name, preserving JS `Map` insertion order. -/
def groupByProject (dis : List DashboardIssue) : List (String × List DashboardIssue) :=
  dis.foldl projStep []

/-- `statusTypePriority[type] ?? 99`. -/
def statusTypePriority (t : String) : Nat :=
  if t = "started" then 0
  else if t = "unstarted" then 1
  else if t = "backlog" then 2
  else if t = "triage" then 3
  else 99

/-- One iteration of the status sub-grouping loop: push the issue onto the
status group of its status name, creating the group at the end on first
sight. -/
def statusStep (m : List StatusGroup) (di : DashboardIssue) : List StatusGroup :=
  let statusName := di.issue.state.name
  if m.any (fun sg => sg.name = statusName) then
    m.map (fun sg =>
      if sg.name = statusName then { sg with issues := sg.issues ++ [di] } else sg)
  else m ++ [⟨statusName, di.issue.state.type, [di]⟩]

/-- Sub-grouping one project's issues by status name, preserving first-seen
order of status names. -/
def buildStatusMap (issues : List DashboardIssue) : List StatusGroup :=
  issues.foldl statusStep []

/-- Stable insertion (before the first strictly greater element) used to model
the stable JS `Array.prototype.sort` by `statusTypePriority` — any stable
sort by the same key yields the same output list. -/
def insertByPriority (sg : StatusGroup) : List StatusGroup → List StatusGroup
  | [] => [sg]
  | x :: xs =>
    if statusTypePriority x.type ≤ statusTypePriority sg.type then
      x :: insertByPriority sg xs
    else sg :: x :: xs

/-- Stable sort of the status groups by `statusTypePriority`. -/
def sortStatusGroups (sgs : List StatusGroup) : List StatusGroup :=
  sgs.foldr insertByPriority []

/-- One `ProjectGroup` from a `(projectName, issues)` bucket. -/
def mkProjectGroup (name : String) (issues : List DashboardIssue) : ProjectGroup :=
  { name := name
    id := match issues.head? with
      | some d => d.issue.projectId
      | none => none
    statusGroups := sortStatusGroups (buildStatusMap issues) }

/-- The ticket ids consumed by fetched issues (`consumedTicketIds`): an
issue's identifier is added exactly when its worktree-map lookup hits. -/
def consumedTicketIds (wtMap : List (String × WtEntry))
    (issues : List LinearAssignedIssue) : List String :=
  (issues.filter (fun i => (mapGet wtMap i.identifier).isSome)).map (·.identifier)

/-- `loadDashboardData` of the dashboard data module, as a pure function of
the fetched issues, the worktree enumeration and the collaborator
environment.  Returns `(groups, flatIssues)`. -/
def loadDashboardData (env : DataEnv) (issues : List LinearAssignedIssue)
    (worktrees : List RawWorktree) : List ProjectGroup × List DashboardIssue :=
  let wtMap := buildWtMap worktrees
  let consumed := consumedTicketIds wtMap issues
  let enriched := issues.map (enrichIssue env wtMap)
  let orphanEntries := wtMap.filter (fun p => ¬ consumed.contains p.1)
  let orphans := orphanEntries.map (fun p => orphanIssue env p.1 p.2)
  let baseGroups := (groupByProject enriched).map (fun p => mkProjectGroup p.1 p.2)
  let groups :=
    if orphans.isEmpty then baseGroups
    else baseGroups ++ [⟨"Orphaned Worktrees", none, [⟨"Orphaned", "orphaned", orphans⟩]⟩]
  (groups, groups.flatMap (fun g => g.statusGroups.flatMap (·.issues)))

/-- The unmatched worktree-map entries (`[...wtMap.entries()].filter(...)`). -/
def orphanEntriesOf (issues : List LinearAssignedIssue) (worktrees : List RawWorktree) :
    List (String × WtEntry) :=
  (buildWtMap worktrees).filter
    (fun p => ¬ (consumedTicketIds (buildWtMap worktrees) issues).contains p.1)

/-- The synthesized orphan issues of a `loadDashboardData` run. -/
def orphansOf (env : DataEnv) (issues : List LinearAssignedIssue)
    (worktrees : List RawWorktree) : List DashboardIssue :=
  (orphanEntriesOf issues worktrees).map (fun p => orphanIssue env p.1 p.2)

/-- The project groups built from the fetched issues alone (before the
orphan group is appended). -/
def baseGroupsOf (env : DataEnv) (issues : List LinearAssignedIssue)
    (worktrees : List RawWorktree) : List ProjectGroup :=
  (groupByProject (issues.map (enrichIssue env (buildWtMap worktrees)))).map
    (fun p => mkProjectGroup p.1 p.2)

/-! ## Interaction router and workflows (source/commands/dashboard.tsx)

The `useInput` callback is embedded as a pure function from the current
state and a discrete key event to the list of synchronously dispatched
actions plus the side-effecting operations it starts.  Branches whose later
dispatches depend on the runtime success of an external call (tmux, git,
browophile opens) are represented by an `Effect` constructor marking the
operation started; only the dispatches that happen unconditionally before
the asynchronous boundary are listed in `actions`. -/

/-- A discrete keyboard event as Ink's `useInput` delivers it: the printable
`input` string plus the relevant `key` flags.  (`key.return` is named
`retKey` here.) -/
structure KeyInput where
  input : String
  escape : Bool := false
  retKey : Bool := false
  shift : Bool := false
  upArrow : Bool := false
  downArrow : Bool := false
  deriving DecidableEq, Repr

/-- The side-effecting operations the router can start. -/
inductive Effect where
  | stageAll                                        -- handleStageAll()
  | prCreateRun (fill : Bool)                       -- doPrCreate(fill)
  | createAndLaunchRun (mode : WorkMode) (runSetup : Bool)  -- createAndLaunch(...)
  | removeWorktreeCall (branch : String) (force : Bool)     -- removeWorktree(...)
  | exitApp                                         -- exit()
  | launchWorkTmux (window : String) (mode : WorkMode)      -- launchWorkInTmux(...)
  | leaveAltAndCd (path : String)                   -- leaveAltScreen + SANTREE_CD + exit
  | tmuxSwitchOrCreate (window : String)            -- Enter-key tmux switch/create
  | openBrowser (url : String)                      -- open/xdg-open
  | openEditor (path : String)                      -- openInEditor(...)
  | openWorkspaceFile                               -- openWorkspace()
  | launchReview (window : String)                  -- `st pr review` tmux window
  | launchFix (window : String)                     -- `st pr fix` tmux window
  | refreshData                                     -- refresh()
  | gitFetchOrigin                                  -- first async step of createAndLaunch
  deriving DecidableEq, Repr

/-- What one router invocation produces. -/
structure RouterOutput where
  actions : List DashboardAction
  effects : List Effect
  deriving DecidableEq, Repr

/-- `doWork` of `dashboard.tsx`.  `hasRepoRoot` stands for
`repoRootRef.current !== null`, `inTmux` for `isInTmux()`, `hasInit` for
`hasInitScript(repoRoot)`. -/
def doWork (s : DashboardState) (hasRepoRoot inTmux hasInit : Bool)
    (mode : WorkMode) : RouterOutput :=
  match jsIndex s.flatIssues s.selectedIndex with
  | none => ⟨[], []⟩
  | some di =>
    if ¬ hasRepoRoot then ⟨[], []⟩
    else
      match di.worktree with
      | some wt =>
        if inTmux then
          ⟨[.setOverlay none], [.launchWorkTmux di.issue.identifier mode]⟩
        else ⟨[.setOverlay none], [.leaveAltAndCd wt.path]⟩
      | none =>
        if hasInit then ⟨[.setOverlay none, .setupConfirmShow mode], []⟩
        else ⟨[.setOverlay none], [.createAndLaunchRun mode false]⟩

/-- The synchronous part of `createAndLaunch`, up to its first asynchronous
boundary (`git fetch origin`): the guard against concurrent creation
(`if (stateRef.current.creatingForTicket) return`) precedes the
`CREATION_START` dispatch, so a rejected invocation dispatches nothing. -/
def createAndLaunchStart (s : DashboardState) (hasRepoRoot : Bool) : RouterOutput :=
  match jsIndex s.flatIssues s.selectedIndex with
  | none => ⟨[], []⟩
  | some di =>
    if ¬ hasRepoRoot then ⟨[], []⟩
    else if jsTruthyStr s.creatingForTicket then ⟨[], []⟩  -- Guard against concurrent creation
    else
      ⟨[.creationStart di.issue.identifier, .creationLog "Fetching origin...\n"],
       [.gitFetchOrigin]⟩

/-- JS `Math.min` on integers. -/
def jsMin (a b : Int) : Int := min a b

/-- JS `Math.max` on integers. -/
def jsMax (a b : Int) : Int := max a b

/-- The `useInput` callback of `dashboard.tsx`, branch for branch and in
source order.  The extra booleans carry the ambient facts the closure reads:
`hasRepoRoot` (`repoRootRef.current`), `inTmux` (`isInTmux()`), `hasInit`
(`hasInitScript`); the browser-command choice
(`process.platform === "darwin"`) does not influence dispatches and is not
a parameter.

`useInput` is registered with
`isActive: state.overlay !== "commit" || state.commitPhase !== "awaiting-message"`;
while inactive the callback never runs (the commit overlay's `TextInput`
consumes the keystrokes), modelled as an empty output. -/
def handleKey (s : DashboardState) (k : KeyInput)
    (hasRepoRoot inTmux hasInit : Bool) : RouterOutput :=
  if s.overlay = some .commit ∧ s.commitPhase = .awaitingMessage then ⟨[], []⟩
  else
    -- Clear action messages on any keypress
    let pre : List DashboardAction :=
      if s.actionMessage ≠ none ∧ k.input ≠ "q" then [.setActionMessage none] else []
    let out : RouterOutput :=
      -- Commit overlay
      if s.overlay = some .commit then
        if k.escape then ⟨[.commitCancel], []⟩
        else if s.commitPhase = .confirmStage then
          if k.input = "y" then ⟨[], [.stageAll]⟩
          else if k.input = "n" then ⟨[.commitCancel], []⟩
          else ⟨[], []⟩
        else ⟨[], []⟩  -- awaiting-message handled by TextInput; other phases swallow
      -- PR create overlay
      else if s.overlay = some .prCreate then
        if k.escape then ⟨[.prCreateCancel], []⟩
        else if s.prCreatePhase = .chooseMode then
          if k.input = "f" then ⟨[], [.prCreateRun true]⟩
          else if k.input = "w" then ⟨[], [.prCreateRun false]⟩
          else ⟨[], []⟩
        else ⟨[], []⟩
      -- Confirm setup overlay: `state.setupMode` is not a field of the
      -- shipped DashboardState, so `mode` is undefined (falsy) and the
      -- `input === "y" && mode` / `input === "n" && mode` guards never fire.
      else if s.overlay = some .confirmSetup then
        if k.escape then ⟨[.setupConfirmDone], []⟩
        else ⟨[], []⟩
      -- Mode select overlay
      else if s.overlay = some .modeSelect then
        if k.input = "p" ∨ k.input = "1" then doWork s hasRepoRoot inTmux hasInit .plan
        else if k.input = "i" ∨ k.input = "2" then doWork s hasRepoRoot inTmux hasInit .implement
        else if k.escape ∨ k.input = "q" then ⟨[.setOverlay none], []⟩
        else ⟨[], []⟩
      -- Confirm delete overlay
      else if s.overlay = some .confirmDelete then
        if k.input = "y" then
          match jsIndex s.flatIssues s.selectedIndex with
          | some di =>
            match di.worktree with
            | some wt =>
              if hasRepoRoot then
                ⟨[.setOverlay none, .deleteStart di.issue.identifier],
                 [.removeWorktreeCall wt.branch wt.dirty]⟩
              else ⟨[.setOverlay none], []⟩
            | none => ⟨[.setOverlay none], []⟩
          | none => ⟨[.setOverlay none], []⟩
        else if k.input = "n" ∨ k.escape ∨ k.input = "q" then ⟨[.setOverlay none], []⟩
        else ⟨[], []⟩
      -- Quit
      else if k.input = "q" then ⟨[], [.exitApp]⟩
      -- Navigation
      else if k.input = "j" ∨ (k.downArrow ∧ ¬ k.shift) then
        ⟨[.select (jsMin (s.selectedIndex + 1) ((s.flatIssues.length : Int) - 1))], []⟩
      else if k.input = "k" ∨ (k.upArrow ∧ ¬ k.shift) then
        ⟨[.select (jsMax (s.selectedIndex - 1) 0)], []⟩
      -- Detail scroll
      else if k.shift ∧ k.downArrow then
        ⟨[.scrollDetail (s.detailScrollOffset + 3)], []⟩
      else if k.shift ∧ k.upArrow then
        ⟨[.scrollDetail (jsMax 0 (s.detailScrollOffset - 3))], []⟩
      else
        match jsIndex s.flatIssues s.selectedIndex with
        | none => ⟨[], []⟩
        | some di =>
          -- Work
          if k.input = "w" then
            if jsTruthyStr (di.worktree.bind (·.sessionId)) then
              ⟨[.setActionMessage (some "Session active. Press Enter to resume.")], []⟩
            else ⟨[.setOverlay (some .modeSelect)], []⟩
          -- Switch to worktree (Enter) — also resumes session
          else if k.retKey then
            match di.worktree with
            | none => ⟨[.setActionMessage (some "No worktree to switch to")], []⟩
            | some wt =>
              if inTmux then ⟨[], [.tmuxSwitchOrCreate di.issue.identifier]⟩
              else ⟨[], [.leaveAltAndCd wt.path]⟩
          -- Open in Linear
          else if k.input = "o" then
            ⟨[.setActionMessage (some "Opened in browser")], [.openBrowser di.issue.url]⟩
          -- Open PR
          else if k.input = "p" then
            if ¬ jsTruthyStr (di.pr.bind (·.url)) then
              ⟨[.setActionMessage (some "No PR to open")], []⟩
            else
              ⟨[.setActionMessage (some "Opened PR in browser")],
               [.openBrowser ((di.pr.bind (·.url)).getD "")]⟩
          -- Create PR
          else if k.input = "c" then
            match di.worktree with
            | none => ⟨[.setActionMessage (some "Create a worktree first (w)")], []⟩
            | some wt =>
              if di.pr.isSome then ⟨[.setActionMessage (some "PR already exists")], []⟩
              else ⟨[.prCreateStart di.issue.identifier wt.path wt.branch], []⟩
          -- Review PR
          else if k.input = "r" then
            if di.pr.isNone ∨ di.worktree.isNone then
              ⟨[.setActionMessage (some "No PR to review")], []⟩
            else if inTmux then ⟨[], [.launchReview ("review-" ++ di.issue.identifier)]⟩
            else ⟨[], [.leaveAltAndCd (((di.worktree).map (·.path)).getD "")]⟩
          -- Open in editor
          else if k.input = "e" then
            match di.worktree with
            | none => ⟨[.setActionMessage (some "No worktree to open")], []⟩
            | some wt => ⟨[], [.openEditor wt.path]⟩
          -- Open workspace
          else if k.input = "E" then ⟨[], [.openWorkspaceFile]⟩
          -- Commit & push
          else if k.input = "C" then
            match di.worktree with
            | none => ⟨[.setActionMessage (some "No worktree")], []⟩
            | some wt =>
              if ¬ wt.dirty then ⟨[.setActionMessage (some "No changes to commit")], []⟩
              else
                ⟨[.commitStart di.issue.identifier wt.path wt.branch wt.gitStatus], []⟩
          -- Fix PR
          else if k.input = "f" then
            if di.pr.isNone ∨ di.worktree.isNone then
              ⟨[.setActionMessage (some "No PR to fix")], []⟩
            else if inTmux then ⟨[], [.launchFix ("fix-" ++ di.issue.identifier)]⟩
            else ⟨[], [.leaveAltAndCd (((di.worktree).map (·.path)).getD "")]⟩
          -- Delete worktree
          else if k.input = "d" then
            match di.worktree with
            | none => ⟨[.setActionMessage (some "No worktree to remove")], []⟩
            | some _ => ⟨[.setOverlay (some .confirmDelete)], []⟩
          -- Refresh
          else if k.input = "R" then ⟨[], [.refreshData]⟩
          else ⟨[], []⟩
    ⟨pre ++ out.actions, out.effects⟩

/-! ## Commit workflow (`handleStageAll` / `handleCommitSubmit`)

The two async handlers of `dashboard.tsx` are embedded as pure functions of
the outcome of each external git call; their value is the ordered list of
dispatched actions, the message actually handed to `git commit`, the actions
the 2-second `setTimeout` success callback dispatches, and whether that
callback triggers a data refresh. -/

/-- Outcome of one external git call inside the commit workflow. -/
inductive StepResult where
  | ok
  | fail (err : String)
  deriving DecidableEq, Repr

/-- JS template-literal interpolation of a `string | null` value
(`null` prints as `"null"`). -/
def tmplStr : Option String → String
  | some t => t
  | none => "null"

/-- JS `String.prototype.includes`: substring containment. -/
def containsSub (hay needle : List Char) : Bool :=
  match hay with
  | [] => needle.isEmpty
  | _ :: t => needle.isPrefixOf hay || containsSub t needle

/-- The message handed to `git commit`: prepend `[ticketId] ` unless the
trimmed input already contains `[ticketId]`. -/
def commitFullMessage (ticketId : Option String) (trimmed : String) : String :=
  if containsSub trimmed.data ("[" ++ tmplStr ticketId ++ "]").data then trimmed
  else "[" ++ tmplStr ticketId ++ "] " ++ trimmed

/-- `handleStageAll` of `dashboard.tsx`: given the outcome of `git add -A`,
the actions it dispatches (nothing when no commit worktree path is set). -/
def handleStageAll (s : DashboardState) (stage : StepResult) : List DashboardAction :=
  match s.commitWorktreePath with
  | none => []
  | some _ =>
    match stage with
    | .ok =>
      [.commitMessage ("[" ++ tmplStr s.commitTicketId ++ "] "),
       .commitPhase .awaitingMessage]
    | .fail e => [.commitError e]

/-- Result of `handleCommitSubmit`. -/
structure CommitSubmitOutput where
  actions : List DashboardAction
  committedMessage : Option String  -- the `-m` argument of `git commit`, if reached
  delayedActions : List DashboardAction  -- dispatched by the 2 s success timer
  refreshTriggered : Bool
  deriving DecidableEq, Repr

/-- `handleCommitSubmit` of `dashboard.tsx`, parameterized by the outcomes of
`git commit` and `git push`. -/
def handleCommitSubmit (s : DashboardState) (value : String)
    (commitRes pushRes : StepResult) : CommitSubmitOutput :=
  if s.commitWorktreePath = none ∨ s.commitBranch = none then ⟨[], none, [], false⟩
  else
    let trimmed := jsTrim value
    if trimmed = "" then ⟨[.commitError "Empty commit message"], none, [], false⟩
    else
      let msg := commitFullMessage s.commitTicketId trimmed
      match commitRes with
      | .fail e => ⟨[.commitPhase .committing, .commitError e], some msg, [], false⟩
      | .ok =>
        match pushRes with
        | .fail e =>
          ⟨[.commitPhase .committing, .commitPhase .pushing, .commitError e],
           some msg, [], false⟩
        | .ok =>
          ⟨[.commitPhase .committing, .commitPhase .pushing, .commitDone],
           some msg, [.commitCancel], true⟩

/-! ## Sample data for witnesses and counterexamples -/

/-- A representative fetched Linear issue. -/
def sampleIssue (id : String) : LinearAssignedIssue where
  identifier := id
  title := "Sample " ++ id
  description := none
  url := "https://linear.app/team/issue/" ++ id
  priority := 2
  priorityLabel := "Medium"
  state := ⟨"In Progress", "started"⟩
  labels := []
  projectId := none
  projectName := none

/-- A dashboard issue with no worktree/PR enrichment. -/
def issueOnly (id : String) : DashboardIssue :=
  ⟨sampleIssue id, none, none, none, none⟩

/-- A dirty worktree for ticket TEAM-9. -/
def sampleWorktree : WorktreeInfo :=
  ⟨"/wt/team-9", "feature/TEAM-9-x", true, 1, none, "M f.ts"⟩

/-- A dashboard issue that has a (dirty) worktree. -/
def issueWithWorktree : DashboardIssue :=
  ⟨sampleIssue "TEAM-9", some sampleWorktree, none, none, none⟩

/-- Loaded state whose selected issue has no worktree. -/
def noWorktreeState : DashboardState :=
  { initialState with flatIssues := [issueOnly "TEAM-5"], loading := false }

/-- Loaded state whose selected row TEAM-9 has a worktree, with the
confirm-delete overlay open while a delete for TEAM-9 is already in flight. -/
def deleteBusyState : DashboardState :=
  { initialState with
      flatIssues := [issueWithWorktree]
      loading := false
      deletingForTicket := some "TEAM-9"
      overlay := some .confirmDelete }

/-- A plain character key event. -/
def keyChar (c : String) : KeyInput :=
  ⟨c, false, false, false, false, false⟩

/-- A two-project grouping used to witness the inverse-mapping theorem. -/
def sampleGroups : List ProjectGroup :=
  [⟨"P1", none,
    [⟨"Started", "started", [issueOnly "A-1", issueOnly "A-2"]⟩,
     ⟨"Backlog", "backlog", [issueOnly "A-3"]⟩]⟩,
   ⟨"P2", none, [⟨"Todo", "unstarted", [issueOnly "B-1"]⟩]⟩]

/-- Number of active overlays of a state: the `overlay` field is a single
nullable tag, so this is 1 or 0. -/
def overlayCount (s : DashboardState) : Nat :=
  match s.overlay with
  | some _ => 1
  | none => 0

/-- A worktree "yields" ticket id `t` when its branch is present, non-empty
and extracts to `t`. -/
def yieldsTid (w : RawWorktree) (t : String) : Prop :=
  ∃ b, w.branch = some b ∧ b ≠ "" ∧ extractTicketId b = some t

/-- A collaborator environment whose externals all answer trivially (clean
status, zero ahead, no PRs, no sessions, base `main`); used for concrete
counterexamples and witnesses. -/
def constEnv : DataEnv where
  gitStatus := fun _ => ""
  commitsAhead := fun _ _ => 0
  prInfo := fun _ => none
  prChecks := fun _ => none
  prReviews := fun _ => none
  sessionId := fun _ => none
  baseBranch := fun _ => "main"

/-! ## Theorems -/

/-- C10: `set-data` resets the detail-pane scroll offset to 0, even though
the selection is preserved by identifier, while overlay, every overlay-local
field, the list scroll offset, the action message and the busy markers are
left unchanged. -/
theorem c10_set_data_frame (s : DashboardState) (gs : List ProjectGroup)
    (fl : List DashboardIssue) :
    (reducer s (.setData gs fl)).detailScrollOffset = 0 ∧
    (reducer s (.setData gs fl)).overlay = s.overlay ∧
    (reducer s (.setData gs fl)).listScrollOffset = s.listScrollOffset ∧
    (reducer s (.setData gs fl)).actionMessage = s.actionMessage ∧
    (reducer s (.setData gs fl)).creatingForTicket = s.creatingForTicket ∧
    (reducer s (.setData gs fl)).creationLogs = s.creationLogs ∧
    (reducer s (.setData gs fl)).creationError = s.creationError ∧
    (reducer s (.setData gs fl)).deletingForTicket = s.deletingForTicket ∧
    (reducer s (.setData gs fl)).commitPhase = s.commitPhase ∧
    (reducer s (.setData gs fl)).commitMessage = s.commitMessage ∧
    (reducer s (.setData gs fl)).commitError = s.commitError ∧
    (reducer s (.setData gs fl)).commitTicketId = s.commitTicketId ∧
    (reducer s (.setData gs fl)).commitWorktreePath = s.commitWorktreePath ∧
    (reducer s (.setData gs fl)).commitBranch = s.commitBranch ∧
    (reducer s (.setData gs fl)).commitGitStatus = s.commitGitStatus ∧
    (reducer s (.setData gs fl)).prCreatePhase = s.prCreatePhase ∧
    (reducer s (.setData gs fl)).prCreateTicketId = s.prCreateTicketId ∧
    (reducer s (.setData gs fl)).prCreateWorktreePath = s.prCreateWorktreePath ∧
    (reducer s (.setData gs fl)).prCreateBranch = s.prCreateBranch ∧
    (reducer s (.setData gs fl)).prCreateError = s.prCreateError ∧
    (reducer s (.setData gs fl)).prCreateUrl = s.prCreateUrl :=
  ⟨rfl, rfl, rfl, rfl, rfl, rfl, rfl, rfl, rfl, rfl, rfl, rfl, rfl, rfl, rfl,
   rfl, rfl, rfl, rfl, rfl, rfl⟩

/-- C5 counterexample: after opening the commit overlay (which seeds the
commit-local fields), closing it with `set-overlay(null)` does NOT reset the
overlay-local fields — the ticket id and status snapshot survive. -/
theorem c5_set_overlay_counterexample :
    ((reducer (reducer initialState (.commitStart "TEAM-1" "/wt/team-1" "feature/TEAM-1-x" "M a.txt"))
        (.setOverlay none)).overlay = none) ∧
    ((reducer (reducer initialState (.commitStart "TEAM-1" "/wt/team-1" "feature/TEAM-1-x" "M a.txt"))
        (.setOverlay none)).commitTicketId = some "TEAM-1") ∧
    ((reducer (reducer initialState (.commitStart "TEAM-1" "/wt/team-1" "feature/TEAM-1-x" "M a.txt"))
        (.setOverlay none)).commitGitStatus = "M a.txt") ∧
    initialState.commitTicketId = none ∧ initialState.commitGitStatus = "" := by
  refine ⟨rfl, rfl, rfl, rfl, rfl⟩

/-- C5 (amended): at most one overlay is ever active (the overlay field is a
single nullable tag); `commit-cancel` clears the overlay and resets every
commit-local field to its empty default, and `pr-create-cancel` does the same
for every pr-create-local field; `set-overlay(null)` only changes the overlay
tag (it does not touch overlay-local fields — no leakage occurs because the
overlay-start actions reseed all their fields). -/
theorem c5_overlay_exclusivity_cancel_reset :
    (∀ (s : DashboardState) (a : DashboardAction), overlayCount (reducer s a) ≤ 1) ∧
    (∀ (s : DashboardState) (o : Option Overlay), (reducer s (.setOverlay o)).overlay = o) ∧
    (∀ s : DashboardState,
      (reducer s .commitCancel).overlay = none ∧
      (reducer s .commitCancel).commitPhase = .idle ∧
      (reducer s .commitCancel).commitMessage = "" ∧
      (reducer s .commitCancel).commitError = none ∧
      (reducer s .commitCancel).commitTicketId = none ∧
      (reducer s .commitCancel).commitWorktreePath = none ∧
      (reducer s .commitCancel).commitBranch = none ∧
      (reducer s .commitCancel).commitGitStatus = "") ∧
    (∀ s : DashboardState,
      (reducer s .prCreateCancel).overlay = none ∧
      (reducer s .prCreateCancel).prCreatePhase = .idle ∧
      (reducer s .prCreateCancel).prCreateTicketId = none ∧
      (reducer s .prCreateCancel).prCreateWorktreePath = none ∧
      (reducer s .prCreateCancel).prCreateBranch = none ∧
      (reducer s .prCreateCancel).prCreateError = none ∧
      (reducer s .prCreateCancel).prCreateUrl = none) := by
  refine ⟨?_, fun s o => rfl, fun s => ⟨rfl, rfl, rfl, rfl, rfl, rfl, rfl, rfl⟩,
    fun s => ⟨rfl, rfl, rfl, rfl, rfl, rfl, rfl⟩⟩
  intro s a
  unfold overlayCount
  cases h : (reducer s a).overlay <;> simp

/-- C4: the `SETUP_CONFIRM_SHOW` action dispatched by `doWork` for a
worktree-less issue in a repo with an init script has no case in the shipped
reducer — it falls into `default: return state`.  Hence the confirm-setup
overlay never becomes active (the state is returned unchanged), and the
create-and-launch workflow is not started either: the user is never asked.
This contradicts `dashboard.tsx`'s own confirm-setup rendering and input
handling, which are dead code. -/
theorem c4_setup_confirm_ignored :
    (∀ (s : DashboardState) (m : WorkMode), reducer s (.setupConfirmShow m) = s) ∧
    (doWork noWorktreeState true false true .plan =
      ⟨[.setOverlay none, .setupConfirmShow .plan], []⟩) ∧
    ((runActions noWorktreeState [.setOverlay none, .setupConfirmShow .plan]).overlay = none) ∧
    (runActions noWorktreeState [.setOverlay none, .setupConfirmShow .plan] =
      { noWorktreeState with overlay := none }) := by
  refine ⟨fun s m => rfl, ?_, rfl, rfl⟩
  decide

/-! ### Selection preservation across `set-data` (C2) -/

theorem jsIndex_cons_succ {α : Type} (a : α) (l : List α) (r : Int) (hr : 0 ≤ r) :
    jsIndex (a :: l) (r + 1) = jsIndex l r := by
  unfold jsIndex
  have h1 : ¬ r + 1 < 0 := by omega
  have h2 : ¬ r < 0 := by omega
  rw [if_neg h1, if_neg h2]
  have h3 : (r + 1).toNat = r.toNat + 1 := by omega
  rw [h3]
  rfl

theorem jsFindIndex_spec {α : Type} (p : α → Bool) (l : List α)
    (h : ∃ x ∈ l, p x = true) :
    0 ≤ jsFindIndex p l ∧
      ∃ a, jsIndex l (jsFindIndex p l) = some a ∧ p a = true := by
  induction l with
  | nil => obtain ⟨x, hx, _⟩ := h; cases hx
  | cons a l ih =>
    by_cases hpa : p a = true
    · refine ⟨by simp [jsFindIndex, hpa], a, ?_, hpa⟩
      simp [jsFindIndex, hpa, jsIndex]
    · obtain ⟨x, hx, hpx⟩ := h
      rcases List.mem_cons.mp hx with rfl | hxl
      · exact absurd hpx hpa
      · obtain ⟨hge, b, hb, hpb⟩ := ih ⟨x, hxl, hpx⟩
        have hlt : ¬ jsFindIndex p l < 0 := by omega
        have hkey : jsFindIndex p (a :: l) = jsFindIndex p l + 1 := by
          simp [jsFindIndex, hpa, hlt]
        refine ⟨?_, b, ?_, hpb⟩
        · rw [hkey]; omega
        · rw [hkey, jsIndex_cons_succ _ _ _ hge]
          exact hb

theorem jsFindIndex_none {α : Type} (p : α → Bool) (l : List α)
    (h : ∀ x ∈ l, p x = false) : jsFindIndex p l = -1 := by
  induction l with
  | nil => rfl
  | cons a l ih =>
    have hpa : p a = false := h a (List.mem_cons_self a l)
    have hr : jsFindIndex p l = -1 := ih fun x hx => h x (List.mem_cons_of_mem a hx)
    simp [jsFindIndex, hpa, hr]

/-- How the `SET_DATA` case computes the new selection, unrolled. -/
theorem reducer_setData_selectedIndex (s : DashboardState) (gs : List ProjectGroup)
    (fl : List DashboardIssue) :
    (reducer s (.setData gs fl)).selectedIndex =
      (if jsTruthyStr ((jsIndex s.flatIssues s.selectedIndex).map (·.issue.identifier)) then
        (if jsFindIndex
              (fun d => d.issue.identifier =
                (((jsIndex s.flatIssues s.selectedIndex).map (·.issue.identifier)).getD ""))
              fl ≥ 0
         then jsFindIndex
              (fun d => d.issue.identifier =
                (((jsIndex s.flatIssues s.selectedIndex).map (·.issue.identifier)).getD ""))
              fl
         else 0)
       else 0) := rfl

/-- A loaded state whose single issue has the empty identifier, and a refresh
result in which that empty identifier moved to index 1. -/
def prevEmptyIdState : DashboardState :=
  { initialState with flatIssues := [issueOnly ""], loading := false }

/-- The refreshed flat list for the C2 counterexample. -/
def newFlatC2 : List DashboardIssue := [issueOnly "A", issueOnly ""]

/-- C2 counterexample: the selection rests on the issue with identifier `""`,
the new flat list still contains an issue with identifier `""` (at index 1),
but `set-data` resets the selection to 0 — the JS truthiness guard
`if (prevId)` treats the empty identifier as "no previous selection", so the
new selection is the unrelated issue `"A"`, not the issue with identifier
`""`. -/
theorem c2_empty_identifier_counterexample :
    ((jsIndex prevEmptyIdState.flatIssues prevEmptyIdState.selectedIndex).map
        (·.issue.identifier) = some "") ∧
    ((jsIndex newFlatC2 1).map (·.issue.identifier) = some "") ∧
    ((reducer prevEmptyIdState (.setData [] newFlatC2)).selectedIndex = 0) ∧
    ((jsIndex newFlatC2 0).map (·.issue.identifier) = some "A") := by
  decide

/-- C2 (amended): for every state whose selection rests on an issue with a
NON-EMPTY identifier X, `set-data` re-selects the first issue with identifier
X in the new flat list whenever one is present (regardless of reordering),
and resets the selection to 0 when X is absent.  (When X is the empty string
the truthiness guard skips relocation and the selection resets to 0, see the
counterexample.) -/
theorem c2_selection_preservation (s : DashboardState) (gs : List ProjectGroup)
    (newFlat : List DashboardIssue) (X : String)
    (hsel : (jsIndex s.flatIssues s.selectedIndex).map (·.issue.identifier) = some X)
    (hX : X ≠ "") :
    ((∃ d ∈ newFlat, d.issue.identifier = X) →
      (reducer s (.setData gs newFlat)).selectedIndex =
        jsFindIndex (fun d => d.issue.identifier = X) newFlat ∧
      ∃ d, jsIndex newFlat (reducer s (.setData gs newFlat)).selectedIndex = some d ∧
        d.issue.identifier = X) ∧
    ((∀ d ∈ newFlat, d.issue.identifier ≠ X) →
      (reducer s (.setData gs newFlat)).selectedIndex = 0) := by
  rw [reducer_setData_selectedIndex, hsel]
  simp only [Option.map_some, Option.getD_some, jsTruthyStr]
  rw [if_pos (by simpa using hX)]
  constructor
  · rintro ⟨d, hd, hdX⟩
    have hex : ∃ x ∈ newFlat, (fun d => decide (d.issue.identifier = X)) x = true :=
      ⟨d, hd, by simpa using hdX⟩
    obtain ⟨hge, a, ha, hpa⟩ := jsFindIndex_spec _ _ hex
    rw [if_pos hge]
    exact ⟨rfl, a, ha, by simpa using hpa⟩
  · intro hall
    have hnone : jsFindIndex (fun d => decide (d.issue.identifier = X)) newFlat = -1 :=
      jsFindIndex_none _ _ fun x hx => by simpa using hall x hx
    rw [hnone]
    simp

/-- C2 witness: a concrete refresh that moves ticket TEAM-1 from index 0 to
index 1 re-selects it there. -/
theorem c2_selection_preservation_witness :
    ((jsIndex ({ initialState with flatIssues := [issueOnly "TEAM-1"] } :
        DashboardState).flatIssues
        ({ initialState with flatIssues := [issueOnly "TEAM-1"] } :
        DashboardState).selectedIndex).map (·.issue.identifier) = some "TEAM-1") ∧
    ("TEAM-1" : String) ≠ "" ∧
    (((∃ d ∈ [issueOnly "X-0", issueOnly "TEAM-1"], d.issue.identifier = "TEAM-1") →
      (reducer { initialState with flatIssues := [issueOnly "TEAM-1"] }
          (.setData [] [issueOnly "X-0", issueOnly "TEAM-1"])).selectedIndex =
        jsFindIndex (fun d => d.issue.identifier = "TEAM-1")
          [issueOnly "X-0", issueOnly "TEAM-1"] ∧
      ∃ d, jsIndex [issueOnly "X-0", issueOnly "TEAM-1"]
          (reducer { initialState with flatIssues := [issueOnly "TEAM-1"] }
            (.setData [] [issueOnly "X-0", issueOnly "TEAM-1"])).selectedIndex = some d ∧
        d.issue.identifier = "TEAM-1") ∧
    ((∀ d ∈ [issueOnly "X-0", issueOnly "TEAM-1"], d.issue.identifier ≠ "TEAM-1") →
      (reducer { initialState with flatIssues := [issueOnly "TEAM-1"] }
          (.setData [] [issueOnly "X-0", issueOnly "TEAM-1"])).selectedIndex = 0)) :=
  ⟨by decide, by decide,
   c2_selection_preservation _ [] [issueOnly "X-0", issueOnly "TEAM-1"] "TEAM-1"
     (by decide) (by decide)⟩

/-! ### Commit workflow scenario (C8) -/

/-- C8: starting from any state, `commit-start` opens the commit overlay in
phase confirm-stage; a successful stage moves to awaiting-message (and
pre-fills the draft with the ticket prefix); submitting "fix bug" with ticket
id TEAM-1 commits with message "[TEAM-1] fix bug", passing through phases
committing and pushing to done; a commit or push failure instead lands in the
error phase with no auto-close scheduled; on success the 2-second auto-close
dispatch leaves the overlay null and a refresh is triggered. -/
theorem c8_commit_workflow (s0 : DashboardState) :
    ((reducer s0 (.commitStart "TEAM-1" "/wt/team-1" "feature/TEAM-1-fix" "M src/a.ts")).overlay
       = some .commit) ∧
    ((reducer s0 (.commitStart "TEAM-1" "/wt/team-1" "feature/TEAM-1-fix" "M src/a.ts")).commitPhase
       = .confirmStage) ∧
    ((runActions (reducer s0 (.commitStart "TEAM-1" "/wt/team-1" "feature/TEAM-1-fix" "M src/a.ts"))
        (handleStageAll
          (reducer s0 (.commitStart "TEAM-1" "/wt/team-1" "feature/TEAM-1-fix" "M src/a.ts"))
          .ok)).commitPhase = .awaitingMessage) ∧
    ((runActions (reducer s0 (.commitStart "TEAM-1" "/wt/team-1" "feature/TEAM-1-fix" "M src/a.ts"))
        (handleStageAll
          (reducer s0 (.commitStart "TEAM-1" "/wt/team-1" "feature/TEAM-1-fix" "M src/a.ts"))
          .ok)).commitMessage = "[TEAM-1] ") ∧
    (∀ e : String,
      (runActions (reducer s0 (.commitStart "TEAM-1" "/wt/team-1" "feature/TEAM-1-fix" "M src/a.ts"))
        (handleStageAll
          (reducer s0 (.commitStart "TEAM-1" "/wt/team-1" "feature/TEAM-1-fix" "M src/a.ts"))
          (.fail e))).commitPhase = .error) ∧
    (let s2 := runActions
        (reducer s0 (.commitStart "TEAM-1" "/wt/team-1" "feature/TEAM-1-fix" "M src/a.ts"))
        (handleStageAll
          (reducer s0 (.commitStart "TEAM-1" "/wt/team-1" "feature/TEAM-1-fix" "M src/a.ts"))
          .ok)
     (handleCommitSubmit s2 "fix bug" .ok .ok).committedMessage = some "[TEAM-1] fix bug" ∧
     (handleCommitSubmit s2 "fix bug" .ok .ok).actions =
       [.commitPhase .committing, .commitPhase .pushing, .commitDone] ∧
     (runActions s2 ((handleCommitSubmit s2 "fix bug" .ok .ok).actions.take 1)).commitPhase
       = .committing ∧
     (runActions s2 ((handleCommitSubmit s2 "fix bug" .ok .ok).actions.take 2)).commitPhase
       = .pushing ∧
     (runActions s2 (handleCommitSubmit s2 "fix bug" .ok .ok).actions).commitPhase = .done ∧
     (handleCommitSubmit s2 "fix bug" .ok .ok).refreshTriggered = true ∧
     (runActions (runActions s2 (handleCommitSubmit s2 "fix bug" .ok .ok).actions)
        (handleCommitSubmit s2 "fix bug" .ok .ok).delayedActions).overlay = none ∧
     (∀ e : String,
       (runActions s2 (handleCommitSubmit s2 "fix bug" (.fail e) .ok).actions).commitPhase
         = .error ∧
       (handleCommitSubmit s2 "fix bug" (.fail e) .ok).delayedActions = [] ∧
       (handleCommitSubmit s2 "fix bug" (.fail e) .ok).refreshTriggered = false) ∧
     (∀ e : String,
       (runActions s2 (handleCommitSubmit s2 "fix bug" .ok (.fail e)).actions).commitPhase
         = .error ∧
       (handleCommitSubmit s2 "fix bug" .ok (.fail e)).delayedActions = [] ∧
       (handleCommitSubmit s2 "fix bug" .ok (.fail e)).refreshTriggered = false)) :=
  ⟨rfl, rfl, rfl, rfl, fun _ => rfl,
   ⟨rfl, rfl, rfl, rfl, rfl, rfl, rfl,
    fun _ => ⟨rfl, rfl, rfl⟩, fun _ => ⟨rfl, rfl, rfl⟩⟩⟩

/-! ### Navigation clamping (C9) -/

/-- A bare down-arrow key event. -/
def keyDownArrow : KeyInput := ⟨"", false, false, false, false, true⟩

/-- A bare up-arrow key event. -/
def keyUpArrow : KeyInput := ⟨"", false, false, false, true, false⟩

/-- Shift + down-arrow. -/
def keyShiftDown : KeyInput := ⟨"", false, false, true, false, true⟩

/-- Shift + up-arrow. -/
def keyShiftUp : KeyInput := ⟨"", false, false, true, true, false⟩

/-- C9 counterexample: at the initial state (empty flat list) the down key is
routed to `SELECT(-1)` — the dispatched index is negative, hence not within
`[0, length-1]` for any reading of that interval. -/
theorem c9_empty_list_counterexample :
    (handleKey initialState (keyChar "j") true false false).actions
      = [.select (-1)] ∧
    ¬ (0 : Int) ≤ -1 := by
  constructor
  · decide
  · omega

/-- C9 (amended): whenever the flat list is non-empty and the current
selection is in range, the index dispatched for a down/up movement key stays
within `[0, length-1]`; shifted up/down dispatch a detail-scroll offset
clamped at 0 (down adds the fixed step 3, up subtracts it with a
`Math.max(0, ·)` clamp), provided the current offset is non-negative.  On an
empty list, down dispatches `-1` and up dispatches `0` (see the
counterexample). -/
theorem c9_navigation_clamped (s : DashboardState) (rr tm hi : Bool)
    (hov : s.overlay = none)
    (h0 : 0 ≤ s.selectedIndex) (h1 : s.selectedIndex < (s.flatIssues.length : Int))
    (hds : 0 ≤ s.detailScrollOffset) :
    (∀ k, (k = keyChar "j" ∨ k = keyDownArrow ∨ k = keyChar "k" ∨ k = keyUpArrow) →
      ∀ i, DashboardAction.select i ∈ (handleKey s k rr tm hi).actions →
        0 ≤ i ∧ i ≤ (s.flatIssues.length : Int) - 1) ∧
    (∀ k, (k = keyShiftDown ∨ k = keyShiftUp) →
      ∀ o, DashboardAction.scrollDetail o ∈ (handleKey s k rr tm hi).actions →
        0 ≤ o) := by
  constructor
  · rintro k (rfl | rfl | rfl | rfl) i hmem <;>
    · simp [handleKey, keyChar, keyDownArrow, keyUpArrow, hov] at hmem
      subst hmem
      constructor <;>
        first
          | (simp only [jsMin, jsMax, min_def, max_def]; split <;> omega)
          | omega
  · rintro k (rfl | rfl) o hmem <;>
    · simp [handleKey, keyShiftDown, keyShiftUp, hov] at hmem
      subst hmem
      first
        | (simp only [jsMin, jsMax, min_def, max_def]; split <;> omega)
        | omega

/-- C9 witness: a concrete in-range state on which the amended navigation
bounds apply. -/
theorem c9_navigation_clamped_witness :
    (({ initialState with flatIssues := [issueOnly "TEAM-1"], loading := false } :
        DashboardState).overlay = none) ∧
    ((0 : Int) ≤ ({ initialState with flatIssues := [issueOnly "TEAM-1"], loading := false } :
        DashboardState).selectedIndex) ∧
    ((∀ k, (k = keyChar "j" ∨ k = keyDownArrow ∨ k = keyChar "k" ∨ k = keyUpArrow) →
      ∀ i, DashboardAction.select i ∈
          (handleKey { initialState with flatIssues := [issueOnly "TEAM-1"], loading := false }
            k true false false).actions →
        0 ≤ i ∧ i ≤ (({ initialState with flatIssues := [issueOnly "TEAM-1"], loading := false } :
          DashboardState).flatIssues.length : Int) - 1) ∧
     (∀ k, (k = keyShiftDown ∨ k = keyShiftUp) →
      ∀ o, DashboardAction.scrollDetail o ∈
          (handleKey { initialState with flatIssues := [issueOnly "TEAM-1"], loading := false }
            k true false false).actions →
        0 ≤ o)) :=
  ⟨rfl, by decide,
   c9_navigation_clamped _ true false false rfl (by decide) (by decide) (by decide)⟩

/-! ### Mutual-exclusion markers (C6) -/

/-- C6 counterexample: while `deletingForTicket = "TEAM-9"`, delete-triggering
input for that row is NOT a no-op.  Pressing `d` (row TEAM-9 selected, no
overlay) still opens the confirm-delete overlay, and pressing `y` in it
dispatches `DELETE_START` to the reducer and starts a second `removeWorktree`
workflow against TEAM-9's branch — the router never consults
`deletingForTicket`. -/
theorem c6_delete_not_guarded_counterexample :
    deleteBusyState.deletingForTicket = some "TEAM-9" ∧
    (handleKey { deleteBusyState with overlay := none } (keyChar "d") true false false =
      ⟨[.setOverlay (some .confirmDelete)], []⟩) ∧
    (handleKey deleteBusyState (keyChar "y") true false false =
      ⟨[.setOverlay none, .deleteStart "TEAM-9"],
       [.removeWorktreeCall "feature/TEAM-9-x" true]⟩) := by
  decide

/-- C6 (amended): creation is guarded — while `creatingForTicket` is set (to
any non-empty ticket id), `createAndLaunch` returns before dispatching
anything, so no `CREATION_START` reaches the reducer and no second create
workflow can start.  Deletion is NOT guarded: while
`deletingForTicket = some T`, confirming the delete overlay for that row
still dispatches `DELETE_START` and invokes `removeWorktree` a second time
(see the counterexample). -/
theorem c6_mutual_exclusion :
    (∀ (s : DashboardState) (hasRoot : Bool),
      jsTruthyStr s.creatingForTicket = true →
      createAndLaunchStart s hasRoot = ⟨[], []⟩) ∧
    (∀ (s : DashboardState) (di : DashboardIssue) (wt : WorktreeInfo) (T : String)
      (tm hin : Bool),
      s.deletingForTicket = some T →
      s.overlay = some .confirmDelete →
      jsIndex s.flatIssues s.selectedIndex = some di →
      di.worktree = some wt →
      DashboardAction.deleteStart di.issue.identifier ∈
        (handleKey s (keyChar "y") true tm hin).actions ∧
      (handleKey s (keyChar "y") true tm hin).effects =
        [.removeWorktreeCall wt.branch wt.dirty]) := by
  constructor
  · intro s hasRoot h
    unfold createAndLaunchStart
    cases hj : jsIndex s.flatIssues s.selectedIndex with
    | none => rfl
    | some di => cases hasRoot <;> simp [h]
  · intro s di wt T tm hin _ hov hj hwt
    constructor
    · simp [handleKey, keyChar, hov, hj, hwt]
    · simp [handleKey, keyChar, hov, hj, hwt]

/-- C6 witness: the creation guard fires on a state with a creation in
flight, and the unguarded delete path fires on `deleteBusyState`. -/
theorem c6_mutual_exclusion_witness :
    (jsTruthyStr ({ initialState with creatingForTicket := some "TEAM-9" } :
        DashboardState).creatingForTicket = true ∧
      createAndLaunchStart { initialState with creatingForTicket := some "TEAM-9" } true
        = ⟨[], []⟩) ∧
    (deleteBusyState.overlay = some .confirmDelete ∧
      DashboardAction.deleteStart issueWithWorktree.issue.identifier ∈
        (handleKey deleteBusyState (keyChar "y") true false false).actions ∧
      (handleKey deleteBusyState (keyChar "y") true false false).effects =
        [.removeWorktreeCall sampleWorktree.branch sampleWorktree.dirty]) :=
  ⟨⟨by decide,
    c6_mutual_exclusion.1 { initialState with creatingForTicket := some "TEAM-9" } true
      (by decide)⟩,
   ⟨rfl,
    (c6_mutual_exclusion.2 deleteBusyState issueWithWorktree sampleWorktree "TEAM-9"
      false false rfl rfl (by decide) rfl).1,
    (c6_mutual_exclusion.2 deleteBusyState issueWithWorktree sampleWorktree "TEAM-9"
      false false rfl rfl (by decide) rfl).2⟩⟩

/-! ### Ticket-id extraction (C3) -/

theorem takeWhile_middle {α : Type} (p : α → Bool) (xs : List α) (y : α) (ys : List α)
    (hxs : ∀ x ∈ xs, p x = true) (hy : p y = false) :
    (xs ++ y :: ys).takeWhile p = xs := by
  induction xs with
  | nil => simp [List.takeWhile_cons, hy]
  | cons a xs ih =>
    have ha : p a = true := hxs a (List.mem_cons_self a xs)
    simp [List.takeWhile_cons, ha]
    exact ih fun x hx => hxs x (List.mem_cons_of_mem a hx)

theorem tryTicketMatch_some_of (l d rest : List Char) (hl : l ≠ []) (hd : d ≠ [])
    (hletters : ∀ c ∈ l, isAsciiLetter c = true)
    (hdigits : ∀ c ∈ d, isAsciiDigit c = true) :
    tryTicketMatch (l ++ '-' :: (d ++ rest)) =
      some (l, (d ++ rest).takeWhile isAsciiDigit) := by
  have htw : (l ++ '-' :: (d ++ rest)).takeWhile isAsciiLetter = l :=
    takeWhile_middle _ l '-' (d ++ rest) hletters (by decide)
  have hlne : l.isEmpty = false := by
    cases l with | nil => exact absurd rfl hl | cons a t => rfl
  have hdrop : (l ++ '-' :: (d ++ rest)).drop l.length = '-' :: (d ++ rest) :=
    List.drop_left l ('-' :: (d ++ rest))
  have hdne : ((d ++ rest).takeWhile isAsciiDigit).isEmpty = false := by
    cases d with
    | nil => exact absurd rfl hd
    | cons b d2 =>
      have hb : isAsciiDigit b = true := hdigits b (List.mem_cons_self b d2)
      simp [List.takeWhile_cons, hb]
  unfold tryTicketMatch
  simp only [htw, hlne, Bool.false_eq_true, if_false, hdrop, hdne]
  simp

theorem findTicketMatch_isSome_of_pattern (pre l d post : List Char) (hl : l ≠ []) (hd : d ≠ [])
    (hletters : ∀ c ∈ l, isAsciiLetter c = true)
    (hdigits : ∀ c ∈ d, isAsciiDigit c = true) :
    (findTicketMatch (pre ++ l ++ '-' :: (d ++ post))).isSome = true := by
  induction pre with
  | nil =>
    have h1 := tryTicketMatch_some_of l d post hl hd hletters hdigits
    cases l with
    | nil => exact absurd rfl hl
    | cons a t =>
      simp only [List.nil_append] at h1 ⊢
      rw [List.cons_append] at h1 ⊢
      unfold findTicketMatch
      rw [h1]
      rfl
  | cons c pre ih =>
    rw [List.cons_append, List.cons_append]
    simp only [List.append_assoc] at ih ⊢
    cases htry : tryTicketMatch (c :: (pre ++ (l ++ '-' :: (d ++ post)))) with
    | some m => simp [findTicketMatch, htry]
    | none =>
      simp only [findTicketMatch, htry]
      exact ih

theorem tryTicketMatch_decomp (l : List Char) (m : List Char × List Char)
    (h : tryTicketMatch l = some m) :
    ∃ ll d post, l = ll ++ '-' :: (d ++ post) ∧ ll ≠ [] ∧ d ≠ [] ∧
      (∀ c ∈ ll, isAsciiLetter c = true) ∧ (∀ c ∈ d, isAsciiDigit c = true) := by
  unfold tryTicketMatch at h
  by_cases hLe : (l.takeWhile isAsciiLetter).isEmpty
  · simp [hLe] at h
  · rw [if_neg (by simpa using hLe)] at h
    cases hdrop : l.drop (l.takeWhile isAsciiLetter).length with
    | nil => rw [hdrop] at h; cases h
    | cons c rest =>
      rw [hdrop] at h
      have h2 : (if c = '-' then
          (if (rest.takeWhile isAsciiDigit).isEmpty then none
           else some (l.takeWhile isAsciiLetter, rest.takeWhile isAsciiDigit))
        else none) = some m := h
      by_cases hc : c = '-'
      · subst hc
        rw [if_pos rfl] at h2
        by_cases hDe : (rest.takeWhile isAsciiDigit).isEmpty
        · simp [hDe] at h2
        · obtain ⟨t2, ht2⟩ := List.takeWhile_prefix (l := l) (p := isAsciiLetter)
          obtain ⟨t, ht⟩ := List.takeWhile_prefix (l := rest) (p := isAsciiDigit)
          refine ⟨l.takeWhile isAsciiLetter, rest.takeWhile isAsciiDigit, t, ?_, ?_, ?_, ?_, ?_⟩
          · have hdrop2 : t2 = l.drop (l.takeWhile isAsciiLetter).length := by
              conv_lhs => rw [← List.drop_left (l.takeWhile isAsciiLetter) t2]
              rw [ht2]
            have hgoal : (l.takeWhile isAsciiLetter) ++
                '-' :: ((rest.takeWhile isAsciiDigit) ++ t) = l := by
              rw [ht, ← hdrop, ← hdrop2, ht2]
            exact hgoal.symm
          · intro hnil; rw [hnil] at hLe; exact hLe rfl
          · intro hnil; rw [hnil] at hDe; exact hDe rfl
          · exact fun x hx => List.mem_takeWhile_imp hx
          · exact fun x hx => List.mem_takeWhile_imp hx
      · rw [if_neg hc] at h2; cases h2

theorem pattern_of_findTicketMatch (l : List Char) (m : List Char × List Char) :
    findTicketMatch l = some m →
    ∃ pre ll d post, l = pre ++ ll ++ '-' :: (d ++ post) ∧ ll ≠ [] ∧ d ≠ [] ∧
      (∀ c ∈ ll, isAsciiLetter c = true) ∧ (∀ c ∈ d, isAsciiDigit c = true) := by
  induction l with
  | nil => intro h; cases h
  | cons c cs ih =>
    intro h
    cases htry : tryTicketMatch (c :: cs) with
    | some mm =>
      obtain ⟨ll, d, post, heq, h1, h2, h3, h4⟩ := tryTicketMatch_decomp _ _ htry
      exact ⟨[], ll, d, post, by simpa using heq, h1, h2, h3, h4⟩
    | none =>
      simp only [findTicketMatch, htry] at h
      obtain ⟨pre, ll, d, post, heq, h1, h2, h3, h4⟩ := ih h
      exact ⟨c :: pre, ll, d, post, by simp [heq], h1, h2, h3, h4⟩

/-- `extractTicketId` succeeds exactly when the branch name contains a
letters-hyphen-digits substring. -/
theorem extractTicketId_ne_none_iff (s : String) :
    extractTicketId s ≠ none ↔ hasTicketPattern s := by
  constructor
  · intro h
    cases hf : findTicketMatch s.data with
    | none =>
      unfold extractTicketId at h
      rw [hf] at h
      simp at h
    | some m =>
      obtain ⟨pre, ll, d, post, heq, h1, h2, h3, h4⟩ := pattern_of_findTicketMatch _ _ hf
      exact ⟨pre, ll, d, post, heq, h1, h2, h3, h4⟩
  · rintro ⟨pre, ll, d, post, heq, h1, h2, h3, h4⟩
    unfold extractTicketId
    rw [heq]
    have hs := findTicketMatch_isSome_of_pattern pre ll d post h1 h2 h3 h4
    cases hf : findTicketMatch (pre ++ ll ++ '-' :: (d ++ post)) with
    | none => rw [hf] at hs; cases hs
    | some m => simp

/-- C3 counterexample: `extractTicketId("release-2024")` is NOT null — the
regex `([a-zA-Z]+)-(\d+)` matches the whole branch name (`release` then a
hyphen then `2024`), so the function returns `"RELEASE-2024"`. -/
theorem c3_release_2024_counterexample :
    ¬ extractTicketId "release-2024" = none ∧
    extractTicketId "release-2024" = some "RELEASE-2024" := by
  decide

/-- C3 (amended): `extractTicketId` is a pure function returning the first
letters-hyphen-digits substring with the letters upper-cased, and null
exactly when no such substring exists; in particular
`extractTicketId("feature/TEAM-123-desc") = "TEAM-123"`,
`extractTicketId("team-7") = "TEAM-7"`, and
`extractTicketId("release-2024") = "RELEASE-2024"` (not null: a digit group
does follow a letter group there). -/
theorem c3_extract_ticket_id :
    extractTicketId "feature/TEAM-123-desc" = some "TEAM-123" ∧
    extractTicketId "team-7" = some "TEAM-7" ∧
    extractTicketId "release-2024" = some "RELEASE-2024" ∧
    (∀ s : String, extractTicketId s ≠ none ↔ hasTicketPattern s) := by
  refine ⟨by decide, by decide, by decide, extractTicketId_ne_none_iff⟩

/-! ### Inverse mapping of the layout math (C1) -/

theorem issuesInStatusGroups_cons (sg : StatusGroup) (rest : List StatusGroup) :
    issuesInStatusGroups (sg :: rest) = sg.issues.length + issuesInStatusGroups rest := by
  simp [issuesInStatusGroups]

theorem rowsInStatusGroups_cons (sg : StatusGroup) (rest : List StatusGroup) :
    rowsInStatusGroups (sg :: rest) = 1 + sg.issues.length + rowsInStatusGroups rest := by
  simp [rowsInStatusGroups]

theorem issuesInGroups_cons (g : ProjectGroup) (rest : List ProjectGroup) :
    issuesInGroups (g :: rest) = issuesInStatusGroups g.statusGroups + issuesInGroups rest := by
  simp [issuesInGroups, issuesInStatusGroups]

theorem rowsInGroups_cons (g : ProjectGroup) (rest : List ProjectGroup) :
    rowsInGroups (g :: rest) = 1 + rowsInStatusGroups g.statusGroups + rowsInGroups rest := by
  simp [rowsInGroups]

theorem rowWalkIssues_hit (count row seen fi : Nat) (h1 : seen ≤ fi) (h2 : fi < seen + count) :
    rowWalkIssues count row seen fi = .inl (row + (fi - seen)) := by
  induction count generalizing row seen with
  | zero => omega
  | succ k ih =>
    unfold rowWalkIssues
    by_cases h : seen = fi
    · rw [if_pos h]
      have hz : fi - seen = 0 := by omega
      rw [hz, Nat.add_zero]
    · rw [if_neg h, ih (row + 1) (seen + 1) (by omega) (by omega)]
      have hs : row + 1 + (fi - (seen + 1)) = row + (fi - seen) := by omega
      rw [hs]

theorem rowWalkIssues_miss (count row seen fi : Nat) (h : seen + count ≤ fi) :
    rowWalkIssues count row seen fi = .inr (row + count, seen + count) := by
  induction count generalizing row seen with
  | zero => rfl
  | succ k ih =>
    unfold rowWalkIssues
    rw [if_neg (by omega), ih (row + 1) (seen + 1) (by omega)]
    simp only [Sum.inr.injEq, Prod.mk.injEq]
    omega

theorem flatWalkIssues_hit (count row seen lr : Nat) (h1 : row ≤ lr) (h2 : lr < row + count) :
    flatWalkIssues count row seen lr = .inl (some (seen + (lr - row))) := by
  induction count generalizing row seen with
  | zero => omega
  | succ k ih =>
    unfold flatWalkIssues
    by_cases h : row = lr
    · rw [if_pos h]
      have hz : lr - row = 0 := by omega
      rw [hz, Nat.add_zero]
    · rw [if_neg h, ih (row + 1) (seen + 1) (by omega) (by omega)]
      have hs : seen + 1 + (lr - (row + 1)) = seen + (lr - row) := by omega
      rw [hs]

theorem flatWalkIssues_miss (count row seen lr : Nat) (h : row + count ≤ lr) :
    flatWalkIssues count row seen lr = .inr (row + count, seen + count) := by
  induction count generalizing row seen with
  | zero => rfl
  | succ k ih =>
    unfold flatWalkIssues
    rw [if_neg (by omega), ih (row + 1) (seen + 1) (by omega)]
    simp only [Sum.inr.injEq, Prod.mk.injEq]
    omega

theorem rowWalkStatusGroups_miss (sgs : List StatusGroup) (row seen fi : Nat)
    (h : seen + issuesInStatusGroups sgs ≤ fi) :
    rowWalkStatusGroups sgs row seen fi =
      .inr (row + rowsInStatusGroups sgs, seen + issuesInStatusGroups sgs) := by
  induction sgs generalizing row seen with
  | nil => simp [rowWalkStatusGroups, rowsInStatusGroups, issuesInStatusGroups]
  | cons sg rest ih =>
    rw [issuesInStatusGroups_cons] at h
    unfold rowWalkStatusGroups
    rw [rowWalkIssues_miss sg.issues.length (row + 1) seen fi (by omega)]
    show rowWalkStatusGroups rest (row + 1 + sg.issues.length) (seen + sg.issues.length) fi = _
    rw [ih (row + 1 + sg.issues.length) (seen + sg.issues.length) (by omega)]
    simp only [Sum.inr.injEq, Prod.mk.injEq, rowsInStatusGroups_cons, issuesInStatusGroups_cons]
    omega

theorem flatWalkStatusGroups_miss (sgs : List StatusGroup) (row seen lr : Nat)
    (h : row + rowsInStatusGroups sgs ≤ lr) :
    flatWalkStatusGroups sgs row seen lr =
      .inr (row + rowsInStatusGroups sgs, seen + issuesInStatusGroups sgs) := by
  induction sgs generalizing row seen with
  | nil => simp [flatWalkStatusGroups, rowsInStatusGroups, issuesInStatusGroups]
  | cons sg rest ih =>
    rw [rowsInStatusGroups_cons] at h
    unfold flatWalkStatusGroups
    rw [if_neg (by omega),
      flatWalkIssues_miss sg.issues.length (row + 1) seen lr (by omega)]
    show flatWalkStatusGroups rest (row + 1 + sg.issues.length) (seen + sg.issues.length) lr = _
    rw [ih (row + 1 + sg.issues.length) (seen + sg.issues.length) (by omega)]
    simp only [Sum.inr.injEq, Prod.mk.injEq, rowsInStatusGroups_cons, issuesInStatusGroups_cons]
    omega

theorem statusGroups_hit (sgs : List StatusGroup) (row seen fi : Nat)
    (h1 : seen ≤ fi) (h2 : fi < seen + issuesInStatusGroups sgs) :
    ∃ r, rowWalkStatusGroups sgs row seen fi = .inl r ∧ row < r ∧
      r < row + rowsInStatusGroups sgs ∧
      flatWalkStatusGroups sgs row seen r = .inl (some fi) := by
  induction sgs generalizing row seen with
  | nil => simp [issuesInStatusGroups] at h2; omega
  | cons sg rest ih =>
    rw [issuesInStatusGroups_cons] at h2
    by_cases hin : fi < seen + sg.issues.length
    · refine ⟨row + 1 + (fi - seen), ?_, by omega, ?_, ?_⟩
      · unfold rowWalkStatusGroups
        rw [rowWalkIssues_hit sg.issues.length (row + 1) seen fi h1 hin]
      · rw [rowsInStatusGroups_cons]; omega
      · unfold flatWalkStatusGroups
        rw [if_neg (by omega),
          flatWalkIssues_hit sg.issues.length (row + 1) seen (row + 1 + (fi - seen))
            (by omega) (by omega)]
        show Sum.inl (some (seen + (row + 1 + (fi - seen) - (row + 1)))) = _
        have hfi : seen + (row + 1 + (fi - seen) - (row + 1)) = fi := by omega
        rw [hfi]
    · obtain ⟨r, hrow, hgt, hlt, hflat⟩ :=
        ih (row + 1 + sg.issues.length) (seen + sg.issues.length) (by omega) (by omega)
      refine ⟨r, ?_, by omega, ?_, ?_⟩
      · unfold rowWalkStatusGroups
        rw [rowWalkIssues_miss sg.issues.length (row + 1) seen fi (by omega)]
        show rowWalkStatusGroups rest (row + 1 + sg.issues.length) (seen + sg.issues.length) fi = _
        exact hrow
      · rw [rowsInStatusGroups_cons]; omega
      · unfold flatWalkStatusGroups
        rw [if_neg (by omega),
          flatWalkIssues_miss sg.issues.length (row + 1) seen r (by omega)]
        show flatWalkStatusGroups rest (row + 1 + sg.issues.length) (seen + sg.issues.length) r = _
        exact hflat

theorem rowWalkGroups_miss (gs : List ProjectGroup) (row seen fi : Nat)
    (h : seen + issuesInGroups gs ≤ fi) :
    rowWalkGroups gs row seen fi = .inr (row + rowsInGroups gs, seen + issuesInGroups gs) := by
  induction gs generalizing row seen with
  | nil => simp [rowWalkGroups, rowsInGroups, issuesInGroups]
  | cons g rest ih =>
    rw [issuesInGroups_cons] at h
    unfold rowWalkGroups
    rw [rowWalkStatusGroups_miss g.statusGroups (row + 1) seen fi (by omega)]
    show rowWalkGroups rest (row + 1 + rowsInStatusGroups g.statusGroups)
      (seen + issuesInStatusGroups g.statusGroups) fi = _
    rw [ih (row + 1 + rowsInStatusGroups g.statusGroups)
      (seen + issuesInStatusGroups g.statusGroups) (by omega)]
    simp only [Sum.inr.injEq, Prod.mk.injEq, rowsInGroups_cons, issuesInGroups_cons]
    omega

theorem groups_hit (gs : List ProjectGroup) (row seen fi : Nat)
    (h1 : seen ≤ fi) (h2 : fi < seen + issuesInGroups gs) :
    ∃ r, rowWalkGroups gs row seen fi = .inl r ∧ row < r ∧
      r < row + rowsInGroups gs ∧
      flatWalkGroups gs row seen r = .inl (some fi) := by
  induction gs generalizing row seen with
  | nil => simp [issuesInGroups] at h2; omega
  | cons g rest ih =>
    rw [issuesInGroups_cons] at h2
    by_cases hin : fi < seen + issuesInStatusGroups g.statusGroups
    · obtain ⟨r, hrow, hgt, hlt, hflat⟩ :=
        statusGroups_hit g.statusGroups (row + 1) seen fi h1 hin
      refine ⟨r, ?_, by omega, ?_, ?_⟩
      · unfold rowWalkGroups
        rw [hrow]
      · rw [rowsInGroups_cons]; omega
      · unfold flatWalkGroups
        rw [if_neg (by omega), hflat]
    · obtain ⟨r, hrow, hgt, hlt, hflat⟩ :=
        ih (row + 1 + rowsInStatusGroups g.statusGroups)
          (seen + issuesInStatusGroups g.statusGroups) (by omega) (by omega)
      refine ⟨r, ?_, by omega, ?_, ?_⟩
      · unfold rowWalkGroups
        rw [rowWalkStatusGroups_miss g.statusGroups (row + 1) seen fi (by omega)]
        show rowWalkGroups rest (row + 1 + rowsInStatusGroups g.statusGroups)
          (seen + issuesInStatusGroups g.statusGroups) fi = _
        exact hrow
      · rw [rowsInGroups_cons]; omega
      · unfold flatWalkGroups
        rw [if_neg (by omega),
          flatWalkStatusGroups_miss g.statusGroups (row + 1) seen r (by omega)]
        show flatWalkGroups rest (row + 1 + rowsInStatusGroups g.statusGroups)
          (seen + issuesInStatusGroups g.statusGroups) r = _
        exact hflat

/-- C1: for every groups structure and every valid flat selection index,
mapping the flat index to its visual row and back is the identity:
`getFlatIndexForListRow(groups, getRowIndexForFlatIndex(groups, flatIndex))`
returns exactly `flatIndex`. -/
theorem c1_inverse_mapping (groups : List ProjectGroup) (flatIndex : Nat)
    (h : flatIndex < issuesInGroups groups) :
    getFlatIndexForListRow groups (getRowIndexForFlatIndex groups flatIndex) = some flatIndex := by
  obtain ⟨r, hrow, hgt, hlt, hflat⟩ :=
    groups_hit groups 1 0 flatIndex (Nat.zero_le _) (by omega)
  have hIdx : getRowIndexForFlatIndex groups flatIndex = r := by
    unfold getRowIndexForFlatIndex
    rw [hrow]
  rw [hIdx]
  unfold getFlatIndexForListRow
  rw [if_neg (by omega), hflat]


/-- C1 witness: the inverse mapping at flat index 1 of a concrete two-project
grouping. -/
theorem c1_inverse_mapping_witness :
    1 < issuesInGroups sampleGroups ∧
    getFlatIndexForListRow sampleGroups (getRowIndexForFlatIndex sampleGroups 1) = some 1 :=
  ⟨by decide, c1_inverse_mapping sampleGroups 1 (by decide)⟩

/-! ### Orphan synthesis and the data aggregator (C7) -/

theorem mapGet_cons {α : Type} (q : String × α) (l : List (String × α)) (k : String) :
    mapGet (q :: l) k = if q.1 = k then some q.2 else mapGet l k := by
  unfold mapGet
  rw [List.find?_cons]
  by_cases hq : q.1 = k
  · simp [hq]
  · simp [hq]

theorem mapGet_map_preserve {α : Type} (m : List (String × α)) (k : String) (v : α) :
    mapGet (m.map (fun p => if p.1 = k then (p.1, v) else p)) k =
      (mapGet m k).map (fun _ => v) := by
  induction m with
  | nil => rfl
  | cons q rest ih =>
    rw [List.map_cons, mapGet_cons, mapGet_cons]
    by_cases hq : q.1 = k
    · simp [hq]
    · simp only [hq, if_neg hq, if_false]
      rw [ih]

theorem mapGet_isSome_of_mem {α : Type} (m : List (String × α)) (k : String) (v : α)
    (h : (k, v) ∈ m) : (mapGet m k).isSome = true := by
  induction m with
  | nil => cases h
  | cons q rest ih =>
    rw [mapGet_cons]
    by_cases hq : q.1 = k
    · simp [hq]
    · rw [if_neg hq]
      rcases List.mem_cons.mp h with rfl | hmem
      · exact absurd rfl hq
      · exact ih hmem

theorem mapGet_append_single {α : Type} (m : List (String × α)) (k : String) (v : α)
    (h : ∀ p ∈ m, p.1 ≠ k) : mapGet (m ++ [(k, v)]) k = some v := by
  induction m with
  | nil => simp [mapGet]
  | cons q rest ih =>
    rw [List.cons_append, mapGet_cons, if_neg (h q (List.mem_cons_self q rest))]
    exact ih fun p hp => h p (List.mem_cons_of_mem q hp)

theorem mapGet_mapSet_self {α : Type} (m : List (String × α)) (k : String) (v : α) :
    mapGet (mapSet m k v) k = some v := by
  unfold mapSet
  by_cases hmem : m.any (fun p => p.1 = k)
  · rw [if_pos hmem, mapGet_map_preserve]
    rw [List.any_eq_true] at hmem
    obtain ⟨p, hp, hpk⟩ := hmem
    have hs : (mapGet m k).isSome = true := by
      have : (p.1, p.2) ∈ m := by simpa using hp
      rw [show p.1 = k from by simpa using hpk] at this
      exact mapGet_isSome_of_mem m k p.2 this
    obtain ⟨u, hu⟩ := Option.isSome_iff_exists.mp hs
    rw [hu]
    rfl
  · rw [if_neg hmem]
    rw [List.any_eq_true] at hmem
    push_neg at hmem
    exact mapGet_append_single m k v fun p hp => by simpa using hmem p hp

theorem mapGet_map_ne {α : Type} (m : List (String × α)) (k : String) (v : α)
    (t : String) (h : t ≠ k) :
    mapGet (m.map (fun p => if p.1 = k then (p.1, v) else p)) t = mapGet m t := by
  induction m with
  | nil => rfl
  | cons q rest ih =>
    rw [List.map_cons, mapGet_cons, mapGet_cons]
    by_cases hq : q.1 = k
    · have hqt : ¬ q.1 = t := by rw [hq]; exact fun hh => h hh.symm
      rw [if_pos hq]
      rw [if_neg hqt, if_neg hqt]
      exact ih
    · rw [if_neg hq]
      by_cases hqt : q.1 = t
      · rw [if_pos hqt, if_pos hqt]
      · rw [if_neg hqt, if_neg hqt]
        exact ih

theorem mapGet_append_ne {α : Type} (m : List (String × α)) (k : String) (v : α)
    (t : String) (h : t ≠ k) : mapGet (m ++ [(k, v)]) t = mapGet m t := by
  induction m with
  | nil => simp [mapGet_cons, mapGet, Ne.symm h]
  | cons q rest ih =>
    rw [List.cons_append, mapGet_cons, mapGet_cons]
    by_cases hqt : q.1 = t
    · rw [if_pos hqt, if_pos hqt]
    · rw [if_neg hqt, if_neg hqt]
      exact ih

theorem mapGet_mapSet_ne {α : Type} (m : List (String × α)) (k : String) (v : α)
    (t : String) (h : t ≠ k) : mapGet (mapSet m k v) t = mapGet m t := by
  unfold mapSet
  by_cases hmem : m.any (fun p => p.1 = k)
  · rw [if_pos hmem]
    exact mapGet_map_ne m k v t h
  · rw [if_neg hmem]
    exact mapGet_append_ne m k v t h


theorem wtStep_none (m : List (String × WtEntry)) (w : RawWorktree)
    (hb : w.branch = none) : wtStep m w = m := by
  unfold wtStep
  rw [hb]

theorem wtStep_empty (m : List (String × WtEntry)) (w : RawWorktree) (b : String)
    (hb : w.branch = some b) (hbe : b = "") : wtStep m w = m := by
  unfold wtStep
  rw [hb]
  show (if b = "" then m else _) = m
  rw [if_pos hbe]

theorem wtStep_some (m : List (String × WtEntry)) (w : RawWorktree) (b : String)
    (hb : w.branch = some b) (hbne : b ≠ "") :
    wtStep m w = (match extractTicketId b with
      | none => m
      | some tid => mapSet m tid ⟨w.path, b⟩) := by
  unfold wtStep
  rw [hb]
  show (if b = "" then m else _) = _
  rw [if_neg hbne]

theorem wtStep_cases (m : List (String × WtEntry)) (w : RawWorktree) :
    wtStep m w = m ∨ ∃ b tid, w.branch = some b ∧ b ≠ "" ∧
      extractTicketId b = some tid ∧ wtStep m w = mapSet m tid ⟨w.path, b⟩ := by
  cases hwb : w.branch with
  | none => exact Or.inl (wtStep_none m w hwb)
  | some b0 =>
    by_cases hb0 : b0 = ""
    · exact Or.inl (wtStep_empty m w b0 hwb hb0)
    · rw [wtStep_some m w b0 hwb hb0]
      cases hex0 : extractTicketId b0 with
      | none => exact Or.inl rfl
      | some tid => exact Or.inr ⟨b0, tid, rfl, hb0, hex0, rfl⟩

theorem keys_mapSet_nodup {α : Type} (m : List (String × α)) (k : String) (v : α)
    (h : (m.map Prod.fst).Nodup) : ((mapSet m k v).map Prod.fst).Nodup := by
  unfold mapSet
  by_cases hmem : m.any (fun p => p.1 = k)
  · rw [if_pos hmem]
    have hkeys : (m.map (fun p => if p.1 = k then (p.1, v) else p)).map Prod.fst
        = m.map Prod.fst := by
      rw [List.map_map]
      apply List.map_congr_left
      intro p _
      by_cases hp : p.1 = k
      · simp [hp]
      · simp [hp]
    rw [hkeys]
    exact h
  · rw [if_neg hmem]
    rw [List.map_append]
    have hk : k ∉ m.map Prod.fst := by
      intro hk
      obtain ⟨p, hp, hpk⟩ := List.mem_map.mp hk
      rw [List.any_eq_true] at hmem
      exact hmem ⟨p, hp, by simpa using hpk⟩
    rw [List.nodup_append]
    refine ⟨h, List.nodup_singleton k, ?_⟩
    intro a ha hb
    simp only [List.map_cons, List.map_nil, List.mem_singleton] at hb
    exact hk (hb ▸ ha)

theorem filter_key_singleton {α : Type} (m : List (String × α)) (k : String) (v : α)
    (hnd : (m.map Prod.fst).Nodup) (hget : mapGet m k = some v) :
    m.filter (fun p => p.1 = k) = [(k, v)] := by
  induction m with
  | nil => simp [mapGet] at hget
  | cons q rest ih =>
    rw [mapGet_cons] at hget
    rw [List.map_cons, List.nodup_cons] at hnd
    by_cases hq : q.1 = k
    · rw [if_pos hq] at hget
      have hv : q.2 = v := by injection hget
      have hrest : rest.filter (fun p => p.1 = k) = [] := by
        apply List.filter_eq_nil_iff.mpr
        intro p hp hpk
        exact hnd.1 (hq ▸ (by simpa using hpk) ▸ List.mem_map_of_mem Prod.fst hp)
      rw [List.filter_cons, if_pos (by simpa using hq), hrest]
      have : q = (k, v) := Prod.ext hq hv
      rw [this]
    · rw [if_neg hq] at hget
      rw [List.filter_cons, if_neg (by simpa using hq)]
      exact ih hnd.2 hget

theorem foldl_wtStep_get (wts : List RawWorktree) (w : RawWorktree) (b t : String)
    (hb : w.branch = some b) (hbne : b ≠ "") (hex : extractTicketId b = some t)
    (huniq : ∀ w' ∈ wts, yieldsTid w' t → w' = w) :
    ∀ m : List (String × WtEntry),
      (w ∈ wts ∨ mapGet m t = some (⟨w.path, b⟩ : WtEntry)) →
      mapGet (wts.foldl wtStep m) t = some (⟨w.path, b⟩ : WtEntry) := by
  induction wts with
  | nil =>
    rintro m (h | h)
    · cases h
    · simpa using h
  | cons w0 rest ih =>
    rintro m hm
    rw [List.foldl_cons]
    have huniq2 : ∀ w' ∈ rest, yieldsTid w' t → w' = w :=
      fun w' hw' => huniq w' (List.mem_cons_of_mem w0 hw')
    by_cases hy : yieldsTid w0 t
    · have hw0 : w0 = w := huniq w0 (List.mem_cons_self w0 rest) hy
      subst hw0
      have hstep : wtStep m w0 = mapSet m t ⟨w0.path, b⟩ := by
        rw [wtStep_some m w0 b hb hbne, hex]
      rw [hstep]
      exact ih huniq2 _ (Or.inr (mapGet_mapSet_self m t ⟨w0.path, b⟩))
    · have hpres : mapGet (wtStep m w0) t = mapGet m t := by
        rcases wtStep_cases m w0 with heq | ⟨b0, tid, hwb, hb0, hex0, heq⟩
        · rw [heq]
        · rw [heq]
          have htid : tid ≠ t := fun hh => hy ⟨b0, hwb, hb0, hh ▸ hex0⟩
          exact mapGet_mapSet_ne m tid ⟨w0.path, b0⟩ t (Ne.symm htid)
      apply ih huniq2
      rcases hm with hw | hget
      · rcases List.mem_cons.mp hw with rfl | hwrest
        · exact absurd ⟨b, hb, hbne, hex⟩ hy
        · exact Or.inl hwrest
      · exact Or.inr (hpres ▸ hget)

theorem buildWtMap_get (wts : List RawWorktree) (w : RawWorktree) (b t : String)
    (hw : w ∈ wts) (hb : w.branch = some b) (hbne : b ≠ "")
    (hex : extractTicketId b = some t)
    (huniq : ∀ w' ∈ wts, yieldsTid w' t → w' = w) :
    mapGet (buildWtMap wts) t = some (⟨w.path, b⟩ : WtEntry) :=
  foldl_wtStep_get wts w b t hb hbne hex huniq [] (Or.inl hw)

theorem buildWtMap_keys_nodup (wts : List RawWorktree) :
    ∀ m : List (String × WtEntry), (m.map Prod.fst).Nodup →
      ((wts.foldl wtStep m).map Prod.fst).Nodup := by
  induction wts with
  | nil => intro m h; simpa using h
  | cons w0 rest ih =>
    intro m h
    rw [List.foldl_cons]
    apply ih
    rcases wtStep_cases m w0 with heq | ⟨b0, tid, hwb, hb0, hex0, heq⟩
    · rw [heq]; exact h
    · rw [heq]; exact keys_mapSet_nodup m tid ⟨w0.path, b0⟩ h

theorem keys_mapSet_src {α : Type} (m : List (String × α)) (k : String) (v : α)
    (k' : String) (h : k' ∈ (mapSet m k v).map Prod.fst) :
    k' ∈ m.map Prod.fst ∨ k' = k := by
  unfold mapSet at h
  by_cases hmem : m.any (fun p => p.1 = k)
  · rw [if_pos hmem] at h
    rw [List.map_map] at h
    obtain ⟨p, hp, hpk⟩ := List.mem_map.mp h
    left
    have hkey : (Prod.fst ∘ fun p => if p.1 = k then (p.1, v) else p) p = p.1 := by
      by_cases hq : p.1 = k <;> simp [hq]
    rw [hkey] at hpk
    exact hpk ▸ List.mem_map_of_mem Prod.fst hp
  · rw [if_neg hmem, List.map_append] at h
    rcases List.mem_append.mp h with h1 | h1
    · exact Or.inl h1
    · right
      simpa using h1

theorem buildWtMap_keys_src (wts : List RawWorktree) :
    ∀ (m : List (String × WtEntry)) (k : String),
      k ∈ (wts.foldl wtStep m).map Prod.fst →
      k ∈ m.map Prod.fst ∨
        ∃ w ∈ wts, ∃ b, w.branch = some b ∧ b ≠ "" ∧ extractTicketId b = some k := by
  induction wts with
  | nil => intro m k h; exact Or.inl (by simpa using h)
  | cons w0 rest ih =>
    intro m k h
    rw [List.foldl_cons] at h
    rcases ih (wtStep m w0) k h with h1 | h1
    · rcases wtStep_cases m w0 with heq | ⟨b0, tid, hwb, hb0, hex0, heq⟩
      · rw [heq] at h1; exact Or.inl h1
      · rw [heq] at h1
        rcases keys_mapSet_src m tid ⟨w0.path, b0⟩ k h1 with h2 | h2
        · exact Or.inl h2
        · exact Or.inr ⟨w0, List.mem_cons_self w0 rest, b0, hwb, hb0, h2 ▸ hex0⟩
    · obtain ⟨w, hwmem, hrest⟩ := h1
      exact Or.inr ⟨w, List.mem_cons_of_mem w0 hwmem, hrest⟩


theorem projStep_mem (P : DashboardIssue → Prop)
    (m : List (String × List DashboardIssue)) (di : DashboardIssue)
    (hm : ∀ pr ∈ m, ∀ x ∈ pr.2, P x) (hdi : P di) :
    ∀ pr ∈ projStep m di, ∀ x ∈ pr.2, P x := by
  intro pr hpr x hx
  unfold projStep at hpr
  by_cases hmem : m.any (fun p => p.1 = di.issue.projectName.getD "No Project")
  · rw [if_pos hmem] at hpr
    obtain ⟨pr0, hpr0, heq⟩ := List.mem_map.mp hpr
    by_cases hk : pr0.1 = di.issue.projectName.getD "No Project"
    · rw [if_pos hk] at heq
      rw [← heq] at hx
      rcases List.mem_append.mp hx with h1 | h1
      · exact hm pr0 hpr0 x h1
      · rw [List.mem_singleton] at h1
        exact h1 ▸ hdi
    · rw [if_neg hk] at heq
      exact hm pr0 hpr0 x (heq ▸ hx)
  · rw [if_neg hmem] at hpr
    rcases List.mem_append.mp hpr with h1 | h1
    · exact hm pr h1 x hx
    · rw [List.mem_singleton] at h1
      rw [h1] at hx
      rw [List.mem_singleton] at hx
      exact hx ▸ hdi

theorem foldl_projStep_mem (P : DashboardIssue → Prop) :
    ∀ (l : List DashboardIssue) (acc : List (String × List DashboardIssue)),
      (∀ pr ∈ acc, ∀ x ∈ pr.2, P x) → (∀ di ∈ l, P di) →
      ∀ pr ∈ l.foldl projStep acc, ∀ x ∈ pr.2, P x := by
  intro l
  induction l with
  | nil => intro acc hacc _; simpa using hacc
  | cons di rest ih =>
    intro acc hacc hl
    rw [List.foldl_cons]
    exact ih (projStep acc di)
      (projStep_mem P acc di hacc (hl di (List.mem_cons_self di rest)))
      (fun x hx => hl x (List.mem_cons_of_mem di hx))

theorem groupByProject_mem (l : List DashboardIssue) :
    ∀ pr ∈ groupByProject l, ∀ x ∈ pr.2, x ∈ l :=
  foldl_projStep_mem (· ∈ l) l [] (by simp) (fun _ h => h)

theorem statusStep_mem (P : DashboardIssue → Prop)
    (m : List StatusGroup) (di : DashboardIssue)
    (hm : ∀ sg ∈ m, ∀ x ∈ sg.issues, P x) (hdi : P di) :
    ∀ sg ∈ statusStep m di, ∀ x ∈ sg.issues, P x := by
  intro sg hsg x hx
  unfold statusStep at hsg
  by_cases hmem : m.any (fun g => g.name = di.issue.state.name)
  · rw [if_pos hmem] at hsg
    obtain ⟨sg0, hsg0, heq⟩ := List.mem_map.mp hsg
    by_cases hk : sg0.name = di.issue.state.name
    · rw [if_pos hk] at heq
      rw [← heq] at hx
      rcases List.mem_append.mp hx with h1 | h1
      · exact hm sg0 hsg0 x h1
      · rw [List.mem_singleton] at h1
        exact h1 ▸ hdi
    · rw [if_neg hk] at heq
      exact hm sg0 hsg0 x (heq ▸ hx)
  · rw [if_neg hmem] at hsg
    rcases List.mem_append.mp hsg with h1 | h1
    · exact hm sg h1 x hx
    · rw [List.mem_singleton] at h1
      rw [h1] at hx
      rw [List.mem_singleton] at hx
      exact hx ▸ hdi

theorem foldl_statusStep_mem (P : DashboardIssue → Prop) :
    ∀ (l : List DashboardIssue) (acc : List StatusGroup),
      (∀ sg ∈ acc, ∀ x ∈ sg.issues, P x) → (∀ di ∈ l, P di) →
      ∀ sg ∈ l.foldl statusStep acc, ∀ x ∈ sg.issues, P x := by
  intro l
  induction l with
  | nil => intro acc hacc _; simpa using hacc
  | cons di rest ih =>
    intro acc hacc hl
    rw [List.foldl_cons]
    exact ih (statusStep acc di)
      (statusStep_mem P acc di hacc (hl di (List.mem_cons_self di rest)))
      (fun x hx => hl x (List.mem_cons_of_mem di hx))

theorem buildStatusMap_mem (l : List DashboardIssue) :
    ∀ sg ∈ buildStatusMap l, ∀ x ∈ sg.issues, x ∈ l :=
  foldl_statusStep_mem (· ∈ l) l [] (by simp) (fun _ h => h)

theorem mem_insertByPriority (sg x : StatusGroup) :
    ∀ l : List StatusGroup, x ∈ insertByPriority sg l → x = sg ∨ x ∈ l := by
  intro l
  induction l with
  | nil => intro h; left; simpa [insertByPriority] using h
  | cons y ys ih =>
    intro h
    unfold insertByPriority at h
    by_cases hc : statusTypePriority y.type ≤ statusTypePriority sg.type
    · rw [if_pos hc] at h
      rcases List.mem_cons.mp h with rfl | h1
      · exact Or.inr (List.mem_cons_self x ys)
      · rcases ih h1 with h2 | h2
        · exact Or.inl h2
        · exact Or.inr (List.mem_cons_of_mem y h2)
    · rw [if_neg hc] at h
      rcases List.mem_cons.mp h with rfl | h1
      · exact Or.inl rfl
      · exact Or.inr h1

theorem mem_sortStatusGroups (sgs : List StatusGroup) (x : StatusGroup)
    (h : x ∈ sortStatusGroups sgs) : x ∈ sgs := by
  unfold sortStatusGroups at h
  induction sgs with
  | nil => simp at h
  | cons y ys ih =>
    rw [List.foldr_cons] at h
    rcases mem_insertByPriority y x _ h with rfl | h1
    · exact List.mem_cons_self x ys
    · exact List.mem_cons_of_mem y (ih h1)

theorem enrichIssue_issue (env : DataEnv) (m : List (String × WtEntry))
    (i : LinearAssignedIssue) : (enrichIssue env m i).issue = i := by
  unfold enrichIssue
  cases mapGet m i.identifier <;> rfl


theorem consumed_contains_false (wtMap : List (String × WtEntry))
    (issues : List LinearAssignedIssue) (t : String)
    (h : ∀ i ∈ issues, i.identifier ≠ t) :
    (consumedTicketIds wtMap issues).contains t = false := by
  by_cases hc : (consumedTicketIds wtMap issues).contains t
  · exfalso
    have hmem : t ∈ consumedTicketIds wtMap issues := by simpa using hc
    unfold consumedTicketIds at hmem
    obtain ⟨i, hi, hident⟩ := List.mem_map.mp hmem
    exact h i (List.mem_filter.mp hi).1 hident
  · simpa using hc

theorem consumed_contains_true (wtMap : List (String × WtEntry))
    (issues : List LinearAssignedIssue) (t : String) (i : LinearAssignedIssue)
    (hi : i ∈ issues) (hit : i.identifier = t)
    (hsome : (mapGet wtMap i.identifier).isSome = true) :
    (consumedTicketIds wtMap issues).contains t = true := by
  have hmem : t ∈ consumedTicketIds wtMap issues := by
    unfold consumedTicketIds
    exact List.mem_map.mpr ⟨i, List.mem_filter.mpr ⟨hi, by simpa using hsome⟩, hit⟩
  simpa using hmem

theorem loadDashboardData_groups (env : DataEnv) (issues : List LinearAssignedIssue)
    (worktrees : List RawWorktree) :
    (loadDashboardData env issues worktrees).1 =
      if (orphansOf env issues worktrees).isEmpty then baseGroupsOf env issues worktrees
      else baseGroupsOf env issues worktrees ++
        [⟨"Orphaned Worktrees", none,
          [⟨"Orphaned", "orphaned", orphansOf env issues worktrees⟩]⟩] := rfl

theorem loadDashboardData_flat (env : DataEnv) (issues : List LinearAssignedIssue)
    (worktrees : List RawWorktree) :
    (loadDashboardData env issues worktrees).2 =
      (loadDashboardData env issues worktrees).1.flatMap
        (fun g => g.statusGroups.flatMap (·.issues)) := rfl

theorem baseGroups_issue_mem (env : DataEnv) (issues : List LinearAssignedIssue)
    (worktrees : List RawWorktree) (di : DashboardIssue)
    (h : di ∈ (baseGroupsOf env issues worktrees).flatMap
      (fun g => g.statusGroups.flatMap (·.issues))) :
    ∃ i ∈ issues, di.issue = i := by
  rw [List.mem_flatMap] at h
  obtain ⟨g, hg, hdig⟩ := h
  rw [List.mem_flatMap] at hdig
  obtain ⟨sg, hsg, hdisg⟩ := hdig
  unfold baseGroupsOf at hg
  obtain ⟨p, hp, hpg⟩ := List.mem_map.mp hg
  have hsg2 : sg ∈ sortStatusGroups (buildStatusMap p.2) := by
    rw [← hpg] at hsg
    exact hsg
  have hsg3 : sg ∈ buildStatusMap p.2 := mem_sortStatusGroups _ sg hsg2
  have hdip : di ∈ p.2 := buildStatusMap_mem p.2 sg hsg3 di hdisg
  have hdien : di ∈ issues.map (enrichIssue env (buildWtMap worktrees)) :=
    groupByProject_mem _ p hp di hdip
  obtain ⟨i, hi, hie⟩ := List.mem_map.mp hdien
  exact ⟨i, hi, by rw [← hie, enrichIssue_issue]⟩


/-- C7 (amended): for every worktree whose branch yields a ticket id `t`
matching no fetched ticket AND extracted from no other listed worktree,
`loadDashboardData` produces exactly one DashboardIssue with identifier `t`
(among all flat issues), with the title derived by the branch-stripping rule
(`orphanTitle`, fallback included), placed in an "Orphaned Worktrees" group
appended last holding a single "Orphaned" sub-group; when every worktree's
ticket id is matched by a fetched issue, no orphan group is appended.  (When
several worktrees yield the same id, only one DashboardIssue is produced,
based on the last such worktree — see the counterexample.) -/
theorem c7_orphan_synthesis :
    (∀ (env : DataEnv) (issues : List LinearAssignedIssue) (worktrees : List RawWorktree)
       (w : RawWorktree) (b t : String),
      w ∈ worktrees → w.branch = some b → b ≠ "" → extractTicketId b = some t →
      (∀ i ∈ issues, i.identifier ≠ t) →
      (∀ w' ∈ worktrees, w' ≠ w → ∀ b', w'.branch = some b' → b' ≠ "" →
        extractTicketId b' ≠ some t) →
      (loadDashboardData env issues worktrees).1 =
        baseGroupsOf env issues worktrees ++
          [⟨"Orphaned Worktrees", none,
            [⟨"Orphaned", "orphaned", orphansOf env issues worktrees⟩]⟩] ∧
      (orphansOf env issues worktrees).filter (fun di => di.issue.identifier = t) =
        [orphanIssue env t ⟨w.path, b⟩] ∧
      ((loadDashboardData env issues worktrees).2).filter
          (fun di => di.issue.identifier = t) = [orphanIssue env t ⟨w.path, b⟩] ∧
      (orphanIssue env t ⟨w.path, b⟩).issue.identifier = t ∧
      (orphanIssue env t ⟨w.path, b⟩).issue.title = orphanTitle b t) ∧
    (∀ (env : DataEnv) (issues : List LinearAssignedIssue) (worktrees : List RawWorktree),
      (∀ w ∈ worktrees, ∀ b, w.branch = some b → b ≠ "" →
        ∀ t, extractTicketId b = some t → ∃ i ∈ issues, i.identifier = t) →
      (loadDashboardData env issues worktrees).1 = baseGroupsOf env issues worktrees) := by
  constructor
  · intro env issues worktrees w b t hw hb hbne hex hnoiss huniq'
    have huniq : ∀ w' ∈ worktrees, yieldsTid w' t → w' = w := by
      intro w' hw' hy
      by_contra hne
      obtain ⟨b', hb', hb'ne, hex'⟩ := hy
      exact huniq' w' hw' hne b' hb' hb'ne hex'
    have hget : mapGet (buildWtMap worktrees) t = some (⟨w.path, b⟩ : WtEntry) :=
      buildWtMap_get worktrees w b t hw hb hbne hex huniq
    have hnd : ((buildWtMap worktrees).map Prod.fst).Nodup :=
      buildWtMap_keys_nodup worktrees [] (by simp)
    have hfil : (buildWtMap worktrees).filter (fun p => p.1 = t)
        = [(t, (⟨w.path, b⟩ : WtEntry))] :=
      filter_key_singleton (buildWtMap worktrees) t ⟨w.path, b⟩ hnd hget
    have hcont : (consumedTicketIds (buildWtMap worktrees) issues).contains t = false :=
      consumed_contains_false _ issues t hnoiss
    -- the t-entry survives the orphan filter, and is the only t-entry there
    have hofil : (orphanEntriesOf issues worktrees).filter (fun p => p.1 = t)
        = [(t, (⟨w.path, b⟩ : WtEntry))] := by
      unfold orphanEntriesOf
      rw [List.filter_filter]
      rw [← hfil]
      apply List.filter_congr
      intro p _
      have hcont2 : t ∉ consumedTicketIds (buildWtMap worktrees) issues := by
        simpa using hcont
      by_cases hpt : p.1 = t
      · simp [hpt, hcont2]
      · simp [hpt]
    have horph : (orphansOf env issues worktrees).filter
        (fun di => di.issue.identifier = t) = [orphanIssue env t ⟨w.path, b⟩] := by
      unfold orphansOf
      rw [List.filter_map]
      have hpred : ∀ p ∈ orphanEntriesOf issues worktrees,
          ((fun di => decide (di.issue.identifier = t)) ∘
            (fun p => orphanIssue env p.1 p.2)) p = decide (p.1 = t) := fun p _ => rfl
      rw [List.filter_congr hpred, hofil]
      rfl
    have hne2 : (orphansOf env issues worktrees).isEmpty = false := by
      cases horphans : orphansOf env issues worktrees with
      | nil => rw [horphans] at horph; simp at horph
      | cons x xs => rfl
    have hgroups : (loadDashboardData env issues worktrees).1 =
        baseGroupsOf env issues worktrees ++
          [⟨"Orphaned Worktrees", none,
            [⟨"Orphaned", "orphaned", orphansOf env issues worktrees⟩]⟩] := by
      rw [loadDashboardData_groups, hne2]
      simp
    refine ⟨hgroups, horph, ?_, rfl, rfl⟩
    rw [loadDashboardData_flat, hgroups, List.flatMap_append, List.filter_append]
    have hbase : ((baseGroupsOf env issues worktrees).flatMap
        (fun g => g.statusGroups.flatMap (·.issues))).filter
          (fun di => di.issue.identifier = t) = [] := by
      rw [List.filter_eq_nil_iff]
      intro di hdi hdit
      obtain ⟨i, hi, hie⟩ := baseGroups_issue_mem env issues worktrees di hdi
      exact hnoiss i hi (by rw [← hie]; simpa using hdit)
    rw [hbase]
    have hog : ([(⟨"Orphaned Worktrees", none,
        [⟨"Orphaned", "orphaned", orphansOf env issues worktrees⟩]⟩ :
          ProjectGroup)].flatMap (fun g => g.statusGroups.flatMap (·.issues)))
        = orphansOf env issues worktrees := by
      simp
    rw [hog, horph]
    rfl
  · intro env issues worktrees hall
    have hempty : orphanEntriesOf issues worktrees = [] := by
      unfold orphanEntriesOf
      rw [List.filter_eq_nil_iff]
      intro p hp hpf
      have hkey : p.1 ∈ (buildWtMap worktrees).map Prod.fst :=
        List.mem_map_of_mem Prod.fst hp
      rcases buildWtMap_keys_src worktrees [] p.1 hkey with h0 | h0
      · simp at h0
      · obtain ⟨w, hwmem, b, hwb, hbne, hex⟩ := h0
        obtain ⟨i, hi, hit⟩ := hall w hwmem b hwb hbne p.1 hex
        have hsome : (mapGet (buildWtMap worktrees) i.identifier).isSome = true := by
          rw [hit]
          exact mapGet_isSome_of_mem _ p.1 p.2 hp
        have hct := consumed_contains_true (buildWtMap worktrees) issues p.1 i hi hit hsome
        have hnot : ¬ (consumedTicketIds (buildWtMap worktrees) issues).contains p.1 = true := by
          simpa using hpf
        exact hnot hct
    have hempty2 : (orphansOf env issues worktrees).isEmpty = true := by
      unfold orphansOf
      rw [hempty]
      rfl
    rw [loadDashboardData_groups, hempty2]
    simp



/-- C7 counterexample: two worktrees whose branches both yield PROJ-9 (with
no fetched ticket PROJ-9) produce only ONE DashboardIssue — the `Map.set`
overwrite keeps the last worktree's path and branch, so the first worktree
gets no DashboardIssue of its own (no entry with title "alpha" or path
"/wt/a" exists). -/
theorem c7_duplicate_tid_counterexample :
    ((loadDashboardData constEnv []
        [⟨"/wt/a", some "fix/PROJ-9-alpha"⟩, ⟨"/wt/b", some "fix/PROJ-9-beta"⟩]).2.length = 1) ∧
    ((loadDashboardData constEnv []
        [⟨"/wt/a", some "fix/PROJ-9-alpha"⟩, ⟨"/wt/b", some "fix/PROJ-9-beta"⟩]).2.map
        (fun di => di.issue.title) = ["beta"]) ∧
    (((loadDashboardData constEnv []
        [⟨"/wt/a", some "fix/PROJ-9-alpha"⟩, ⟨"/wt/b", some "fix/PROJ-9-beta"⟩]).2.map
        (fun di => (di.worktree.map (·.path)).getD "")) = ["/wt/b"]) ∧
    extractTicketId "fix/PROJ-9-alpha" = some "PROJ-9" ∧
    extractTicketId "fix/PROJ-9-beta" = some "PROJ-9" := by
  decide

/-- C7 witness: a single unmatched worktree `fix/PROJ-9-typo` produces its
orphan entry, and a fully matched run appends no orphan group. -/
theorem c7_orphan_synthesis_witness :
    ((loadDashboardData constEnv [] [⟨"/wt/proj-9", some "fix/PROJ-9-typo"⟩]).1 =
        baseGroupsOf constEnv [] [⟨"/wt/proj-9", some "fix/PROJ-9-typo"⟩] ++
          [⟨"Orphaned Worktrees", none,
            [⟨"Orphaned", "orphaned",
              orphansOf constEnv [] [⟨"/wt/proj-9", some "fix/PROJ-9-typo"⟩]⟩]⟩] ∧
      (orphansOf constEnv [] [⟨"/wt/proj-9", some "fix/PROJ-9-typo"⟩]).filter
          (fun di => di.issue.identifier = "PROJ-9") =
        [orphanIssue constEnv "PROJ-9" ⟨"/wt/proj-9", "fix/PROJ-9-typo"⟩] ∧
      ((loadDashboardData constEnv [] [⟨"/wt/proj-9", some "fix/PROJ-9-typo"⟩]).2).filter
          (fun di => di.issue.identifier = "PROJ-9") =
        [orphanIssue constEnv "PROJ-9" ⟨"/wt/proj-9", "fix/PROJ-9-typo"⟩] ∧
      (orphanIssue constEnv "PROJ-9"
        ⟨"/wt/proj-9", "fix/PROJ-9-typo"⟩).issue.identifier = "PROJ-9" ∧
      (orphanIssue constEnv "PROJ-9" ⟨"/wt/proj-9", "fix/PROJ-9-typo"⟩).issue.title =
        orphanTitle "fix/PROJ-9-typo" "PROJ-9") ∧
    ((loadDashboardData constEnv [sampleIssue "TEAM-9"]
        [⟨"/wt/team-9", some "feature/TEAM-9-x"⟩]).1 =
      baseGroupsOf constEnv [sampleIssue "TEAM-9"]
        [⟨"/wt/team-9", some "feature/TEAM-9-x"⟩]) :=
  ⟨c7_orphan_synthesis.1 constEnv [] [⟨"/wt/proj-9", some "fix/PROJ-9-typo"⟩]
      ⟨"/wt/proj-9", some "fix/PROJ-9-typo"⟩ "fix/PROJ-9-typo" "PROJ-9"
      (by decide) rfl (by decide) (by decide)
      (by intro i hi; cases hi)
      (by
        intro w' hw' hne b' hb' hb'ne hex'
        rw [List.mem_singleton] at hw'
        exact absurd hw' hne),
   c7_orphan_synthesis.2 constEnv [sampleIssue "TEAM-9"]
      [⟨"/wt/team-9", some "feature/TEAM-9-x"⟩]
      (by
        intro w hw b hb hbne t hext
        rw [List.mem_singleton] at hw
        subst hw
        have hb2 : some "feature/TEAM-9-x" = some b := hb
        have hb3 : b = "feature/TEAM-9-x" := by injection hb2 with h; exact h.symm
        subst hb3
        have he : extractTicketId "feature/TEAM-9-x" = some "TEAM-9" := by decide
        rw [he] at hext
        have ht : "TEAM-9" = t := by injection hext
        exact ⟨sampleIssue "TEAM-9", List.mem_singleton.mpr rfl, ht⟩)⟩

end Santree
